import Mathlib

/-!
Verification development for the CreatureBox simulation engine
(brain.go and sim.go of BenTheElder/creaturebox).

Modelling conventions:
* Go float64 values are modelled as real numbers; the values drawn from
  the random source are modelled as rational oracles (rand.Float64 only
  produces dyadic rationals, and rand.Intn produces machine integers),
  so weight vectors are lists of rationals while positions, angles and
  network activations live in the reals.
* Machine integers are modelled as Nat/Int; int64 scores as Int.
* The draw2d rasterizer is an external dependency, not part of this
  repository; the pixels covered by an obstacle stroke are therefore an
  oracle parameter, while the border rectangles, the interior clear and
  the out-of-bounds behaviour of image.RGBA.At have exact integer
  geometry and are modelled directly.
* Go slices of statically known length are modelled either as lists or,
  for the brain-internal scratch vectors, as functions from Nat whose
  meaningful domain is the allocation length from the constructors.
-/

namespace CreatureBox

/-- Radius of a creature in pixels (sim.go, const creatureRadius = 6). -/
def creatureRadius : ℕ := 6

/-- Thickness of obstacle strokes (sim.go, const obstacleWidth = 3). -/
def obstacleWidth : ℕ := 3

/-- Minimum number of creatures that must be alive (sim.go, minCreatures = 10). -/
def minCreatures : ℕ := 10

/-- Number of obstacles to spawn (sim.go, numObstacles = 6). -/
def numObstacles : ℕ := 6

/-- Limit for automatic creature spawning (sim.go, maxCreatures = 2*minCreatures). -/
def maxCreatures : ℕ := 2 * minCreatures

/-- Limit for the creature hall of fame (sim.go, maxBestCreatures = maxCreatures*2). -/
def maxBestCreatures : ℕ := maxCreatures * 2

/-- Ticks between evolution spawning (sim.go, evolutionCycleTicks = 30*5). -/
def evolutionCycleTicks : ℕ := 30 * 5

/-- Number of sensor inputs for the brain (brain.go, numBrainInputs = 12). -/
def numBrainInputs : ℕ := 12

/-- Number of outputs fed back as inputs (brain.go, memorySize = 12). -/
def memorySize : ℕ := 12

/-- math.MaxInt64, the score saturation bound in DoTick. -/
def maxInt64 : ℤ := 2 ^ 63 - 1

/-- math.MaxFloat64, the sentinel distance returned by DistanceToNearest. -/
noncomputable def maxFloat64 : ℝ := 2 ^ 1024 - 2 ^ 971

/-- Length of the input layer (brain.go: make([]Perceptron, numBrainInputs+memorySize)). -/
def inLayerLen : ℕ := numBrainInputs + memorySize

/-- Length of the output layer (brain.go: make([]Perceptron, memorySize+2)). -/
def outLayerLen : ℕ := memorySize + 2

/-- Weights per input-layer perceptron (brain.go: numBrainInputs+memorySize+1). -/
def inWeightLen : ℕ := numBrainInputs + memorySize + 1

/-- Weights per output-layer perceptron (brain.go: len(inLayer)+1). -/
def outWeightLen : ℕ := inLayerLen + 1

/-- Total number of weights in a brain
(brain.go: len(inLayer)*inWeightLen + len(outLayer)*outWeightLen = 950). -/
def brainWeightsLen : ℕ := inLayerLen * inWeightLen + outLayerLen * outWeightLen

/-- The random source: an oracle stream of rand.Float64 draws (dyadic
rationals in [0,1)) and a stream of nonnegative integers backing
rand.Intn, which is reduced modulo the bound at each use site.  A single
cursor indexes both streams; each draw advances the cursor by one. -/
structure Rng where
  floats : ℕ → ℚ
  ints : ℕ → ℕ

/-- Brain state (brain.go type Brain).  The perceptron slices inLayer and
outLayer are windows into allWeights at fixed offsets (they are re-bound to
those offsets by every constructor and by SetWeights), so they are
represented by the offsets themselves inside tanhActivation/stepCore.
output, x and inOutput are the preallocated scratch/state vectors of
lengths outLayerLen, inWeightLen and inWeightLen. -/
structure Brain where
  allWeights : List ℚ
  output : ℕ → ℝ
  x : ℕ → ℝ
  inOutput : ℕ → ℝ

/-- Perceptron.TanhActivation for the perceptron whose weight window
starts at off and has length n inside w: tanh of the dot product of the
window with the input vector (brain.go lines 46-52). -/
noncomputable def tanhActivation (w : List ℚ) (off n : ℕ) (inp : ℕ → ℝ) : ℝ :=
  Real.tanh (∑ k ∈ Finset.range n, ((w.getD (off + k) 0 : ℚ) : ℝ) * inp k)

/-- The first loop of Brain.Step after n iterations
(for j := 0; j < len(input); j++ { b.x[j+1] = input[j] }). -/
noncomputable def writeInputs (x0 : ℕ → ℝ) (input : List ℝ) : ℕ → ℕ → ℝ
  | 0 => x0
  | j + 1 => Function.update (writeInputs x0 input j) (j + 1) (input.getD j 0)

/-- The second loop of Brain.Step after m iterations, with base index j
(for i := 2; i < len(b.output); i++ { b.x[j+i] = b.output[i] }), so the
m-th iteration writes out (m+2) to slot j+(m+2). -/
noncomputable def writeMemory (x0 : ℕ → ℝ) (out : ℕ → ℝ) (j : ℕ) : ℕ → ℕ → ℝ
  | 0 => x0
  | m + 1 => Function.update (writeMemory x0 out j m) (j + (m + 2)) (out (m + 2))

/-- The input-layer loop of Brain.Step after m iterations
(for i := 0; i < len(b.inLayer); i++ { b.inOutput[i+1] = inLayer[i].TanhActivation(b.x) }).
inLayer[i] is the window of allWeights starting at i*inWeightLen. -/
noncomputable def writeInOut (io0 : ℕ → ℝ) (w : List ℚ) (xv : ℕ → ℝ) : ℕ → ℕ → ℝ
  | 0 => io0
  | i + 1 =>
    Function.update (writeInOut io0 w xv i) (i + 1)
      (tanhActivation w (i * inWeightLen) inWeightLen xv)

/-- The output-layer loop of Brain.Step after m iterations
(for i := 0; i < len(b.outLayer); i++ { b.output[i] = outLayer[i].TanhActivation(b.inOutput) }).
outLayer[i] is the window of allWeights starting at
len(inLayer)*inWeightLen + i*outWeightLen. -/
noncomputable def writeOutput (o0 : ℕ → ℝ) (w : List ℚ) (io : ℕ → ℝ) : ℕ → ℕ → ℝ
  | 0 => o0
  | i + 1 =>
    Function.update (writeOutput o0 w io i) i
      (tanhActivation w (inLayerLen * inWeightLen + i * outWeightLen) outWeightLen io)

/-- The effective input vector of one Step invocation: the sensor loop
followed by the memory loop with base index j = len(input)-2
(brain.go lines 160-170). -/
noncomputable def effectiveX (b : Brain) (input : List ℝ) : ℕ → ℝ :=
  writeMemory (writeInputs b.x input input.length) b.output (input.length - 2)
    (outLayerLen - 2)

/-- The body of Brain.Step once the length guard has passed: build the
effective input vector, run both layers, return (output[0], output[1])
together with the updated brain state (brain.go lines 160-178). -/
noncomputable def stepCore (b : Brain) (input : List ℝ) : (ℝ × ℝ) × Brain :=
  let x2 := effectiveX b input
  let io := writeInOut b.inOutput b.allWeights x2 inLayerLen
  let out := writeOutput b.output b.allWeights io outLayerLen
  ((out 0, out 1), { b with x := x2, inOutput := io, output := out })

/-- Brain.Step (brain.go lines 156-179).  The panic on a wrong-length
input is modelled as none; otherwise the result of stepCore. -/
noncomputable def step (b : Brain) (input : List ℝ) : Option ((ℝ × ℝ) × Brain) :=
  if input.length = numBrainInputs then some (stepCore b input) else none

/-- Brain.GetWeights returns the backing weight slice (brain.go line 185). -/
def getWeights (b : Brain) : List ℚ :=
  b.allWeights

/-- Brain.SetWeights re-binds the weight slice; the perceptron windows are
re-sliced to the same fixed offsets, which are already implicit in how
stepCore reads allWeights (brain.go lines 190-206). -/
def setWeights (w : List ℚ) (b : Brain) : Brain :=
  { b with allWeights := w }

/-- A list of n fresh rand.Float64()*2-1 draws starting at cursor k. -/
def randWeights (f : ℕ → ℚ) (k n : ℕ) : List ℚ :=
  (List.range n).map fun i => f (k + i) * 2 - 1

/-- Brain.RandomizeWeights replaces every weight in place with a fresh
rand.Float64()*2-1 (brain.go lines 209-214); the number of draws is the
length of the existing weight slice. -/
def randomizeWeights (f : ℕ → ℚ) (k : ℕ) (b : Brain) : Brain :=
  { b with allWeights := randWeights f k b.allWeights.length }

/-- The initial scratch vector of a fresh brain: slot 0 holds the bias 1,
all other slots are zero (brain.go: b.x[0] = 1, b.inOutput[0] = 1 after
zero-initialising make). -/
noncomputable def biasVec : ℕ → ℝ :=
  fun i => if i = 0 then 1 else 0

/-- NewRandomBrain (brain.go lines 74-113): brainWeightsLen fresh draws
laid out input layer first, zeroed output, bias slots set. -/
noncomputable def newRandomBrain (f : ℕ → ℚ) (k : ℕ) : Brain :=
  { allWeights := randWeights f k brainWeightsLen
    output := fun _ => 0
    x := biasVec
    inOutput := biasVec }

/-- NewBrainFromWeights (brain.go lines 117-150): adopts the given weight
slice, zeroed output, bias slots set. -/
noncomputable def newBrainFromWeights (w : List ℚ) : Brain :=
  { allWeights := w
    output := fun _ => 0
    x := biasVec
    inOutput := biasVec }

/-- TopCreature (sim.go lines 89-92): a hall-of-fame entry pairing a
weight vector with the best score observed for it. -/
structure TopCreature where
  score : ℤ
  weights : List ℚ
deriving DecidableEq

/-- Default entry used for out-of-range list reads; never reached in the
executions considered (all reads are in range). -/
def defaultTop : TopCreature :=
  { score := 0, weights := [] }

/-- TopCreature.WeightsEqual (sim.go lines 96-106): length check followed
by elementwise equality over the entry's indices. -/
def weightsEqual (a b : List ℚ) : Bool :=
  a.length == b.length && (List.range a.length).all fun i => a.getD i 0 == b.getD i 0

/-- First index whose entry's weights match w, or none: the loop of
TopCreatures.IndexOfWeights (sim.go lines 125-132). -/
def firstIdxW : List TopCreature → List ℚ → Option ℕ
  | [], _ => none
  | e :: r, w => if weightsEqual e.weights w then some 0 else (firstIdxW r w).map (· + 1)

/-- TopCreatures.IndexOfWeights with its -1 sentinel (sim.go lines 125-132). -/
def indexOfWeights (t : List TopCreature) (w : List ℚ) : ℤ :=
  match firstIdxW t w with
  | none => -1
  | some i => i

/-- The hall-of-fame fold inlined twice in DoTick (sim.go lines 452-464 and
488-501): look up the weights; if absent append a new entry, otherwise
raise the stored score when the new score is larger (only the score field
is assigned). -/
def foldTop (best : List TopCreature) (w : List ℚ) (sc : ℤ) : List TopCreature :=
  match firstIdxW best w with
  | none => best ++ [{ score := sc, weights := w }]
  | some i =>
    let e := best.getD i defaultTop
    if e.score < sc then best.set i { score := sc, weights := e.weights } else best

/-- A sequence of hall-of-fame folds applied in order. -/
def foldAll (best : List TopCreature) (folds : List (List ℚ × ℤ)) : List TopCreature :=
  folds.foldl (fun b p => foldTop b p.1 p.2) best

/-- The truncation loop of DoTick (sim.go lines 505-510) indexed by the
loop variable i, which always equals the current last index: while
i > maxCreatures, remove the last entry and decrement i. -/
def truncLoop : ℕ → List TopCreature → List TopCreature
  | 0, l => l
  | i + 1, l => if maxCreatures < i + 1 then truncLoop i l.dropLast else l

/-- The guarded truncation of DoTick (sim.go lines 505-510): it runs only
when the hall of fame exceeds maxBestCreatures, starting at i = len-1. -/
def truncateBest (l : List TopCreature) : List TopCreature :=
  if maxBestCreatures < l.length then truncLoop (l.length - 1) l else l

/-- Deterministic stand-in for sort.Sort(sort.Reverse(t)) (sim.go line 503):
the Go sort only guarantees some permutation ordered by descending score;
the insertion sort below produces one such permutation. -/
def sortBest (l : List TopCreature) : List TopCreature :=
  l.insertionSort fun a b => b.score ≤ a.score

/-- Obstacle (sim.go lines 78-85).  The angle only feeds the external
rasterizer, so it stays a real; the remaining fields are produced by
integer draws and rational arithmetic. -/
structure Obstacle where
  x : ℚ
  y : ℚ
  dx : ℚ
  dy : ℚ
  length : ℚ
  angle : ℝ

/-- Creature (sim.go lines 56-63).  The color field is display-only (it is
a pure function of the brain weights and feeds nothing in the engine), so
it is omitted from the model. -/
structure Creature where
  x : ℝ
  y : ℝ
  angle : ℝ
  score : ℤ
  brain : Brain

/-- Sim (sim.go lines 135-154) restricted to the engine state: the
framebuffer and graphic context are replaced by the occupancy model below,
and the shared random source is modelled by the cursor k into the oracle
streams. -/
structure SimState where
  width : ℕ
  height : ℕ
  border : ℕ
  creatures : List Creature
  pool : List Creature
  obstacles : List Obstacle
  best : List TopCreature
  tick : ℕ
  k : ℕ

/-- Width of the bordered frame: the simulation area extended by the
border on both sides (NewSim, sim.go line 159). -/
def frameW (w border : ℕ) : ℕ :=
  w + 2 * border

/-- NewRandomCreature (sim.go lines 182-191): a fresh random brain
(brainWeightsLen draws) followed by the x, y and angle draws; the score
field keeps its zero value. -/
noncomputable def newRandomCreature (f : Rng) (k width height : ℕ) : Creature :=
  { x := ((f.ints (k + brainWeightsLen) % (width - creatureRadius) + creatureRadius : ℕ) : ℝ)
    y := ((f.ints (k + brainWeightsLen + 1) % (height - creatureRadius) + creatureRadius : ℕ) : ℝ)
    angle := (f.floats (k + brainWeightsLen + 2) : ℝ) * 2 * Real.pi
    score := 0
    brain := newRandomBrain f.floats k }

/-- NewRandomCreatureWithWeights (sim.go lines 195-204): adopt the given
weights, then the x, y and angle draws; score keeps its zero value. -/
noncomputable def newRandomCreatureWithWeights (f : Rng) (k width height : ℕ)
    (w : List ℚ) : Creature :=
  { x := ((f.ints k % (width - creatureRadius) + creatureRadius : ℕ) : ℝ)
    y := ((f.ints (k + 1) % (height - creatureRadius) + creatureRadius : ℕ) : ℝ)
    angle := (f.floats (k + 2) : ℝ) * 2 * Real.pi
    score := 0
    brain := newBrainFromWeights w }

/-- SpawnRandomCreature (sim.go lines 242-257).  With a non-empty pool the
last pooled creature is re-activated: its weights are randomized in place,
position and angle are redrawn, and nothing else is assigned — in
particular its score field keeps the value it had when it died.  With an
empty pool a fresh creature is allocated. -/
noncomputable def spawnRandomCreature (f : Rng) (st : SimState) : SimState :=
  match st.pool.getLast? with
  | some c =>
    { st with
      creatures := st.creatures ++
        [{ c with
            brain := randomizeWeights f.floats st.k c.brain
            x := ((f.ints (st.k + c.brain.allWeights.length) %
                    (st.width - creatureRadius) + creatureRadius : ℕ) : ℝ)
            y := ((f.ints (st.k + c.brain.allWeights.length + 1) %
                    (st.height - creatureRadius) + creatureRadius : ℕ) : ℝ)
            angle := (f.floats (st.k + c.brain.allWeights.length + 2) : ℝ) * 2 * Real.pi }]
      pool := st.pool.dropLast
      k := st.k + c.brain.allWeights.length + 3 }
  | none =>
    { st with
      creatures := st.creatures ++ [newRandomCreature f st.k st.width st.height]
      k := st.k + brainWeightsLen + 3 }

/-- SpawnCreatureWithWeights (sim.go lines 262-277).  With a non-empty pool
the last pooled creature is re-activated with the provided weights bound
into its brain; its score field again keeps its dead value.  With an empty
pool a fresh creature is allocated from the weights. -/
noncomputable def spawnCreatureWithWeights (f : Rng) (w : List ℚ) (st : SimState) : SimState :=
  match st.pool.getLast? with
  | some c =>
    { st with
      creatures := st.creatures ++
        [{ c with
            brain := setWeights w c.brain
            x := ((f.ints st.k % (st.width - creatureRadius) + creatureRadius : ℕ) : ℝ)
            y := ((f.ints (st.k + 1) % (st.height - creatureRadius) + creatureRadius : ℕ) : ℝ)
            angle := (f.floats (st.k + 2) : ℝ) * 2 * Real.pi }]
      pool := st.pool.dropLast
      k := st.k + 3 }
  | none =>
    { st with
      creatures := st.creatures ++ [newRandomCreatureWithWeights f st.k st.width st.height w]
      k := st.k + 3 }

/-- The clone weight vector: make([]float64, lW) followed by copy from the
source (SpawnCreatures, sim.go lines 295-296); indices beyond the source
keep the zero fill. -/
def copyTo (n : ℕ) (src : List ℚ) : List ℚ :=
  (List.range n).map fun j => src.getD j 0

/-- The hall-of-fame clone loop of SpawnCreatures (sim.go lines 294-298),
running r more iterations with loop index i. -/
noncomputable def cloneLoop (f : Rng) (lW : ℕ) : ℕ → ℕ → SimState → SimState
  | 0, _, st => st
  | r + 1, i, st =>
    cloneLoop f lW r (i + 1)
      (spawnCreatureWithWeights f
        (copyTo lW ((st.best.getD (i % st.best.length) defaultTop).weights)) st)

/-- One crossover weight vector (SpawnCreatures, sim.go lines 304-312):
entries below the divider come from best[offset], the rest from
best[offset+1], both cycled modulo the hall-of-fame size. -/
def crossWeights (best : List TopCreature) (lW offset divider : ℕ) : List ℚ :=
  (List.range lW).map fun j =>
    if j < divider then (best.getD (offset % best.length) defaultTop).weights.getD j 0
    else (best.getD ((offset + 1) % best.length) defaultTop).weights.getD j 0

/-- The crossover loop of SpawnCreatures (sim.go lines 303-315), running r
more iterations (r encodes the remaining loop bound n/4 - i, which together
with the incremented offset reproduces the loop exactly); each iteration
draws a divider and spawns the mixed vector. -/
noncomputable def crossLoop (f : Rng) (lW : ℕ) : ℕ → ℕ → SimState → SimState
  | 0, _, st => st
  | r + 1, offset, st =>
    let divider := f.ints st.k % lW
    crossLoop f lW r (offset + 1)
      (spawnCreatureWithWeights f (crossWeights st.best lW offset divider)
        { st with k := st.k + 1 })

/-- The trailing fully random loop of SpawnCreatures (sim.go lines 318-320),
running r more iterations. -/
noncomputable def randomLoop (f : Rng) : ℕ → SimState → SimState
  | 0, st => st
  | r + 1, st => randomLoop f r (spawnRandomCreature f st)

/-- SpawnCreatures (sim.go lines 283-321).  With a non-empty hall of fame:
nToSpawn = max(n/2, 1) clones, an early return when i == n, then the
crossover loop while i < n/4 (its remaining iteration count is the
truncated subtraction n/4 - nToSpawn), then random creatures up to n. -/
noncomputable def spawnCreatures (f : Rng) (n : ℕ) (st : SimState) : SimState :=
  if 0 < st.best.length then
    let lW := (st.best.getD 0 defaultTop).weights.length
    let n2 := n / 2
    let nToSpawn := if n2 < 1 then 1 else n2
    let st1 := cloneLoop f lW nToSpawn 0 st
    if nToSpawn = n then st1
    else
      randomLoop f (n - (nToSpawn + (n / 4 - nToSpawn)))
        (crossLoop f lW (n / 4 - nToSpawn) nToSpawn st1)
  else
    randomLoop f n st

/-- The obstacle update loop of DoTick (sim.go lines 386-398): advance each
obstacle by its velocity and drop it when it is farther outside the frame
than its own length on either axis. -/
def advanceObstacles (Wf Hf : ℚ) : List Obstacle → List Obstacle
  | [] => []
  | o :: r =>
    let o2 := { o with x := o.x + o.dx, y := o.y + o.dy }
    if o2.x - Wf ≥ o2.length ∨ -o2.x ≥ o2.length ∨ o2.y - Hf ≥ o2.length ∨ -o2.y ≥ o2.length
    then advanceObstacles Wf Hf r
    else o2 :: advanceObstacles Wf Hf r

/-- Fuel bound for the rand retry loops of NewRandomObstacle; the loops
redraw while the draw is exactly zero, and the oracle streams used in the
concrete executions of this development give a nonzero draw immediately. -/
def retryFuel : ℕ := 100

/-- One component draw of NewRandomObstacle (sim.go lines 209-216):
rand.Float64()*2-1, redrawn while it is zero. -/
def drawNonzero (f : ℕ → ℚ) : ℕ → ℕ → ℚ × ℕ
  | k, 0 => (f k * 2 - 1, k + 1)
  | k, fuel + 1 =>
    let d := f k * 2 - 1
    if d = 0 then drawNonzero f (k + 1) fuel else (d, k + 1)

/-- math.Copysign for the rational magnitudes involved (sim.go lines
217-218); the argument is nonzero at both call sites. -/
def goCopysign (m d : ℚ) : ℚ :=
  if d < 0 then -m else m

/-- NewRandomObstacle (sim.go lines 208-227).  Note that the y position and
the length both draw rand.Intn(s.width), exactly as in the source. -/
noncomputable def newRandomObstacle (f : Rng) (width : ℕ) (k : ℕ) : Obstacle × ℕ :=
  let p1 := drawNonzero f.floats k retryFuel
  let p2 := drawNonzero f.floats p1.2 retryFuel
  let k2 := p2.2
  ({ x := ((f.ints k2 % width : ℕ) : ℚ)
     y := ((f.ints (k2 + 1) % width : ℕ) : ℚ)
     angle := (f.floats (k2 + 2) : ℝ) * 2 * Real.pi
     dx := p1.1 + goCopysign (1 / 2) p1.1
     dy := p2.1 + goCopysign (1 / 2) p2.1
     length := ((f.ints (k2 + 3) % width : ℕ) : ℚ) / 3 + (width : ℚ) / 6 }, k2 + 4)

/-- SpawnObstacles (sim.go lines 324-328): append n fresh random obstacles. -/
noncomputable def spawnObstacles (f : Rng) (width : ℕ) :
    ℕ → List Obstacle → ℕ → List Obstacle × ℕ
  | 0, obs, k => (obs, k)
  | n + 1, obs, k =>
    let p := newRandomObstacle f width k
    spawnObstacles f width n (obs ++ [p.1]) p.2

/-- The occupancy of the frame once DoTick has drawn the border bands,
cleared the interior and stroked the obstacles (sim.go lines 362-415):
inside the frame a pixel is occupied iff it lies in one of the four border
bands or on some obstacle stroke (the stroke rasterization sh is the
external draw2d collaborator); outside the frame image.RGBA.At returns the
zero color, which compares unequal to BGColor and therefore reads as
occupied. -/
def occupied (sh : Obstacle → ℤ → ℤ → Bool) (width height border : ℕ)
    (obs : List Obstacle) (p q : ℤ) : Bool :=
  if 0 ≤ p ∧ p < ((frameW width border : ℕ) : ℤ) ∧
      0 ≤ q ∧ q < ((frameW height border : ℕ) : ℤ) then
    decide (p < (border : ℤ)) || decide (((width + border : ℕ) : ℤ) ≤ p) ||
      decide (q < (border : ℤ)) || decide (((height + border : ℕ) : ℤ) ≤ q) ||
      obs.any fun o => sh o p q
  else true

/-- Go's int(x) conversion for float64: truncation toward zero. -/
noncomputable def goInt (x : ℝ) : ℤ :=
  if 0 ≤ x then ⌊x⌋ else ⌈x⌉

/-- xyDist (sim.go lines 331-333). -/
noncomputable def xyDist (x y p q : ℝ) : ℝ :=
  Real.sqrt ((x - p) ^ 2 + (y - q) ^ 2)

open Classical in
/-- The ray-march loop of DistanceToNearest (sim.go lines 348-355), with a
fuel in place of the unbounded while loop: each step advances by the unit
vector (ax, ay), and the loop exits (returning the MaxFloat64 sentinel) as
soon as the point leaves the frame bounds, which happens well within the
fuel supplied by senseFuel below. -/
noncomputable def distAux (frame : ℤ → ℤ → Bool) (Wf Hf cx cy ax ay : ℝ) :
    ℕ → ℝ → ℝ → ℝ
  | 0, _, _ => maxFloat64
  | fuel + 1, x, y =>
    if x < Wf ∧ 0 ≤ x ∧ y < Hf ∧ 0 ≤ y then
      if frame (goInt x) (goInt y) then xyDist cx cy x y
      else distAux frame Wf Hf cx cy ax ay fuel (x + ax) (y + ay)
    else maxFloat64

/-- Steps sufficient for any unit-step ray to leave the bordered frame:
the frame diagonal is at most width+height+4*border, and each step moves
the point a distance of exactly one. -/
def senseFuel (width height border : ℕ) : ℕ :=
  2 * (width + height + 4 * border) + 8

/-- Sim.DistanceToNearest (sim.go lines 342-357).  The march starts one
unit step from the creature's position and samples the frame at the
truncated coordinates; note that the creature coordinates are used
unshifted, without the border offset applied everywhere else. -/
noncomputable def distanceToNearest (frame : ℤ → ℤ → Bool) (width height border : ℕ)
    (c : Creature) (angle : ℝ) : ℝ :=
  let ax := Real.cos (angle + c.angle)
  let ay := Real.sin (angle + c.angle)
  distAux frame ((frameW width border : ℕ) : ℝ) ((frameW height border : ℕ) : ℝ)
    c.x c.y ax ay (senseFuel width height border) (c.x + ax) (c.y + ay)

/-- The death condition of DoTick's removal pass (sim.go lines 433-450):
some pixel of the bounding square around the border-shifted position lies
within the creature radius of the center and is occupied. -/
noncomputable def Dead (frame : ℤ → ℤ → Bool) (border : ℕ) (c : Creature) : Prop :=
  ∃ cy : ℤ, goInt ((border : ℝ) + c.y) - creatureRadius ≤ cy ∧
    cy ≤ goInt ((border : ℝ) + c.y) + creatureRadius ∧
    ∃ cx : ℤ, goInt ((border : ℝ) + c.x) - creatureRadius ≤ cx ∧
      cx ≤ goInt ((border : ℝ) + c.x) + creatureRadius ∧
      xyDist ((border : ℝ) + c.x) ((border : ℝ) + c.y) cx cy ≤ (creatureRadius : ℝ) ∧
      frame cx cy = true

/-- Decidable integer form of the death condition for creatures standing at
integer coordinates; the bridge lemma dead_iff_deadZ below proves it equal
to Dead there. -/
def deadZ (frame : ℤ → ℤ → Bool) (border : ℕ) (X Y : ℤ) : Bool :=
  (List.range (2 * creatureRadius + 1)).any fun dy =>
    (List.range (2 * creatureRadius + 1)).any fun dx =>
      decide ((((border : ℤ) + X) - ((border : ℤ) + X - creatureRadius + dx)) ^ 2 +
          (((border : ℤ) + Y) - ((border : ℤ) + Y - creatureRadius + dy)) ^ 2 ≤
          (creatureRadius : ℤ) ^ 2) &&
        frame ((border : ℤ) + X - creatureRadius + dx) ((border : ℤ) + Y - creatureRadius + dy)

/-- Creature.GetAction (sim.go lines 69-75): fill the sensor vector with
the ray distances at the evenly spaced relative angles and run one brain
step.  The getD default is unreachable because the constructed input list
has length numBrainInputs (see getAction_inputs_length). -/
noncomputable def getAction (frame : ℤ → ℤ → Bool) (width height border : ℕ)
    (c : Creature) : (ℝ × ℝ) × Brain :=
  (step c.brain ((List.range numBrainInputs).map fun i : ℕ =>
    distanceToNearest frame width height border c
      (Real.pi * 2 * (i : ℝ) / (numBrainInputs : ℝ)))).getD ((0, 0), c.brain)

/-- The per-creature body of DoTick's action pass (sim.go lines 473-485):
turn and move from the brain, heading update by turn/8, position update by
4*move along the new heading, and the saturating score increment. -/
noncomputable def act (frame : ℤ → ℤ → Bool) (width height border : ℕ)
    (c : Creature) : Creature :=
  let r := getAction frame width height border c
  let angle2 := c.angle + r.1.1 / 8
  { c with
    angle := angle2
    x := c.x + Real.cos angle2 * r.1.2 * 4
    y := c.y + Real.sin angle2 * r.1.2 * 4
    score := if c.score < maxInt64 then c.score + 1 else c.score
    brain := r.2 }

open Classical in
/-- The removal pass of DoTick (sim.go lines 433-470): creatures are
scanned in order; a dead creature's weights and score are folded into the
hall of fame, the creature is appended to the recycle pool and removed
from the active list. -/
noncomputable def deathPass (frame : ℤ → ℤ → Bool) (border : ℕ) :
    List Creature → List TopCreature → List Creature →
      List Creature × List TopCreature × List Creature
  | [], best, pool => ([], best, pool)
  | c :: rest, best, pool =>
    if Dead frame border c then
      deathPass frame border rest (foldTop best c.brain.allWeights c.score) (pool ++ [c])
    else
      let r := deathPass frame border rest best pool
      (c :: r.1, r.2.1, r.2.2)

/-- The live hall-of-fame refresh of DoTick (sim.go lines 488-501): fold
every surviving creature's weights and current score. -/
def aliveFold (best : List TopCreature) (cs : List Creature) : List TopCreature :=
  cs.foldl (fun b c => foldTop b c.brain.allWeights c.score) best

/-- Swap two list positions; out-of-range indices leave the list unchanged
(shuffleCreatures only produces in-range indices). -/
def listSwap {α : Type} (l : List α) (i j : ℕ) : List α :=
  match l.get? i, l.get? j with
  | some a, some b => (l.set i b).set j a
  | _, _ => l

/-- shuffleCreatures (sim.go lines 232-237): Durstenfeld Fisher-Yates,
iterating i from len-1 down to 1 and swapping with a uniform j in [0, i]. -/
def shuffleAux {α : Type} (ints : ℕ → ℕ) : ℕ → List α → ℕ → List α × ℕ
  | 0, l, k => (l, k)
  | i + 1, l, k => shuffleAux ints i (listSwap l (i + 1) (ints k % (i + 2))) (k + 1)

/-- The shuffle step of DoTick (sim.go line 430). -/
def shufflePhase (f : Rng) (st : SimState) : SimState :=
  let p := shuffleAux f.ints (st.creatures.length - 1) st.creatures st.k
  { st with creatures := p.1, k := p.2 }

/-- The obstacle step of DoTick (sim.go lines 386-401): advance and cull
obstacles, then top the population up to numObstacles. -/
noncomputable def obstaclesPhase (f : Rng) (st : SimState) : SimState :=
  let obs1 := advanceObstacles ((frameW st.width st.border : ℕ) : ℚ)
    ((frameW st.height st.border : ℕ) : ℚ) st.obstacles
  if obs1.length < numObstacles then
    let p := spawnObstacles f st.width (numObstacles - obs1.length) obs1 st.k
    { st with obstacles := p.1, k := p.2 }
  else
    { st with obstacles := obs1 }

/-- The evolution-cycle step of DoTick (sim.go lines 418-423). -/
noncomputable def evolutionPhase (f : Rng) (st : SimState) : SimState :=
  if st.tick % evolutionCycleTicks = 0 ∧ st.creatures.length < maxCreatures then
    spawnCreatures f (maxCreatures - st.creatures.length) st
  else st

/-- The population-floor step of DoTick (sim.go lines 426-428). -/
noncomputable def floorPhase (f : Rng) (st : SimState) : SimState :=
  if st.creatures.length < minCreatures then
    spawnCreatures f (minCreatures - st.creatures.length) st
  else st

/-- The state of the simulation at the point DoTick starts its removal
pass: obstacles advanced/culled/topped-up, evolution and floor spawning
done, creature order shuffled (sim.go lines 362-430). -/
noncomputable def preDeath (f : Rng) (st : SimState) : SimState :=
  shufflePhase f (floorPhase f (evolutionPhase f (obstaclesPhase f st)))

/-- The occupancy surface DoTick draws for a state: border bands plus the
strokes of its current obstacle list. -/
def frameOf (sh : Obstacle → ℤ → ℤ → Bool) (st : SimState) : ℤ → ℤ → Bool :=
  occupied sh st.width st.height st.border st.obstacles

/-- Sim.DoTick (sim.go lines 361-528): the full tick.  The final creature
drawing only writes pixels that the next tick's border/interior redraw
erases before anything samples the frame, so it does not appear in the
state. -/
noncomputable def doTick (sh : Obstacle → ℤ → ℤ → Bool) (f : Rng) (st : SimState) : SimState :=
  let p := preDeath f st
  let frame := frameOf sh p
  let d := deathPass frame p.border p.creatures p.best p.pool
  let cs2 := d.1.map (act frame p.width p.height p.border)
  { p with
    creatures := cs2
    best := truncateBest (sortBest (aliveFold d.2.1 cs2))
    pool := d.2.2
    tick := p.tick + 1 }

/-! ### Heap-level model of slice sharing

Brain.GetWeights returns the brain's backing slice itself, so a
hall-of-fame entry created at a creature's death shares storage with that
creature's brain, and Brain.RandomizeWeights overwrites that storage in
place.  The value-level model above cannot express this; the small model
below tracks weight slices in an explicit store and is used to settle the
recycling claim. -/

/-- A hall-of-fame entry at heap level: the weights field is a reference
into the store (the slice returned by GetWeights). -/
structure HTopCreature where
  score : ℤ
  ref : ℕ
deriving DecidableEq

/-- A pooled/active creature at heap level: score plus the reference to
its brain's backing weight slice. -/
structure HCreature where
  score : ℤ
  ref : ℕ
deriving DecidableEq

/-- Dereference a weight slice in the store. -/
def hLookup (store : List (List ℚ)) (r : ℕ) : List ℚ :=
  store.getD r []

/-- IndexOfWeights at heap level: value comparison through the store. -/
def hFirstIdx (store : List (List ℚ)) : List HTopCreature → List ℚ → Option ℕ
  | [], _ => none
  | e :: r, w =>
    if weightsEqual (hLookup store e.ref) w then some 0 else (hFirstIdx store r w).map (· + 1)

/-- The death-pass hall-of-fame fold at heap level (sim.go lines 452-464):
a new entry records the reference GetWeights returns, i.e. the dying
creature's own backing slice. -/
def hFoldDead (store : List (List ℚ)) (best : List HTopCreature) (c : HCreature) :
    List HTopCreature :=
  match hFirstIdx store best (hLookup store c.ref) with
  | none => best ++ [{ score := c.score, ref := c.ref }]
  | some i =>
    let e := best.getD i { score := 0, ref := 0 }
    if e.score < c.score then best.set i { score := c.score, ref := e.ref } else best

/-- RandomizeWeights at heap level (brain.go lines 209-214): the backing
slice is overwritten in place, visible through every reference to it. -/
def hRandomizeWeights (f : ℕ → ℚ) (k : ℕ) (store : List (List ℚ)) (r : ℕ) :
    List (List ℚ) :=
  store.set r (randWeights f k (hLookup store r).length)

/-- SpawnRandomCreature at heap level with a non-empty pool (sim.go lines
242-257): pop the last pooled creature, randomize its backing slice in
place and re-activate it; its score field is not assigned. -/
def hSpawnRandomRecycle (f : Rng) (k : ℕ) (store : List (List ℚ))
    (pool active : List HCreature) :
    List (List ℚ) × List HCreature × List HCreature :=
  match pool.getLast? with
  | some c => (hRandomizeWeights f.floats k store c.ref, pool.dropLast, active ++ [c])
  | none => (store, pool, active)

/-- Lookup of a weight vector's stored score by first match; proof-side
characterization of the hall of fame used by the fold invariants. -/
def lookupW : List TopCreature → List ℚ → Option ℤ
  | [], _ => none
  | e :: r, w => if e.weights = w then some e.score else lookupW r w

/-- Combine an optional stored score with a newly folded score exactly as
foldTop does: absent means adopt, present means keep the maximum. -/
def maxCombine (o : Option ℤ) (sc : ℤ) : Option ℤ :=
  match o with
  | none => some sc
  | some s => some (if s < sc then sc else s)

/-- Fold maxCombine over a list of scores. -/
def maxFolded (o : Option ℤ) : List ℤ → Option ℤ
  | [] => o
  | sc :: rest => maxFolded (maxCombine o sc) rest

/-- All-zero-weight brain in its freshly constructed state; a concrete
instance for witnesses. -/
noncomputable def zeroBrain : Brain :=
  { allWeights := List.replicate brainWeightsLen 0
    output := fun _ => 0
    x := biasVec
    inOutput := biasVec }

/-- A concrete random source for counterexample executions: every float
draw is 3/4 (so every randomized weight is 1/2) and every integer draw is
0. -/
def constRng : Rng :=
  { floats := fun _ => 3 / 4
    ints := fun _ => 0 }

/-- Default creature used for out-of-range list reads in statements; never
reached in the executions considered. -/
noncomputable def defaultCreature : Creature :=
  { x := 0, y := 0, angle := 0, score := 0, brain := zeroBrain }

/-- Weight vector whose only nonzero entry is the bias weight of output
perceptron 1 (the move output): indices 0..599 are the input layer,
600..624 output perceptron 0, 625 is the bias weight of output
perceptron 1.  A brain with these weights always answers turn = tanh 0 = 0
and move = tanh 1, independent of its sensor inputs. -/
def moveWeights : List ℚ :=
  List.replicate 625 0 ++ (1 :: List.replicate 324 0)

/-- Brain carrying moveWeights in its freshly constructed state. -/
noncomputable def moveBrain : Brain :=
  { allWeights := moveWeights
    output := fun _ => 0
    x := biasVec
    inOutput := biasVec }

/-- A plausible rasterization for the near-horizontal concrete obstacle o2
below: the bounding box of a width-3 stroke drawn from the border-shifted
obstacle position along its length. -/
def strokeH (o : Obstacle) (p q : ℤ) : Bool :=
  decide ((16 : ℚ) + o.x ≤ p ∧ (p : ℚ) ≤ 16 + o.x + o.length ∧
    (16 : ℚ) + o.y - 1 ≤ q ∧ (q : ℚ) ≤ 16 + o.y + 2)

/-- A plausible rasterization for the vertical concrete obstacle o5 below:
the bounding box of a width-3 stroke drawn downward from the
border-shifted obstacle position. -/
def strokeV (o : Obstacle) (p q : ℤ) : Bool :=
  decide ((16 : ℚ) + o.x ≤ p ∧ (p : ℚ) ≤ 16 + o.x + (obstacleWidth : ℚ) ∧
    (16 : ℚ) + o.y ≤ q ∧ (q : ℚ) ≤ 16 + o.y + o.length)

/-- A concrete obstacle far from the creatures of the concrete states
below; it survives its advance step, so the tick spawns no obstacles. -/
noncomputable def o2 : Obstacle :=
  { x := 10, y := 10, dx := 3 / 2, dy := 3 / 2, length := 5, angle := 0 }

/-- The obstacle o2 after one advance step. -/
noncomputable def o2a : Obstacle :=
  { x := 23 / 2, y := 23 / 2, dx := 3 / 2, dy := 3 / 2, length := 5, angle := 0 }

/-- A concrete creature sitting at the arena origin: the border band lies
inside its sampling square, so the death check kills it. -/
noncomputable def c2Creature : Creature :=
  { x := 0, y := 0, angle := 0, score := 0, brain := zeroBrain }

/-- Concrete state for the population-floor counterexample: exactly
minCreatures creatures, all of which die in the tick. -/
noncomputable def st2 : SimState :=
  { width := 100, height := 100, border := 16
    creatures := List.replicate 10 c2Creature
    pool := [], obstacles := List.replicate 6 o2, best := [], tick := 1, k := 0 }

/-- A concrete creature in the middle of the arena, heading along the
positive x axis, whose brain always moves it forward by 4 * tanh 1. -/
noncomputable def c4Creature : Creature :=
  { x := 50, y := 50, angle := 0, score := 0, brain := moveBrain }

/-- Concrete state for the death-pass ordering counterexample: ten safe
creatures that all survive and move during the tick. -/
noncomputable def st4 : SimState :=
  { width := 100, height := 100, border := 16
    creatures := List.replicate 10 c4Creature
    pool := [], obstacles := List.replicate 6 o2, best := [], tick := 1, k := 0 }

/-- A concrete vertical obstacle whose stroke occupies frame columns 30-33
and rows 20-80. -/
noncomputable def o5 : Obstacle :=
  { x := 14, y := 4, dx := 1, dy := 1, length := 60, angle := 0 }

/-- The frame of a tick that drew o5: border bands plus a vertical stroke. -/
noncomputable def frame5 : ℤ → ℤ → Bool :=
  occupied strokeV 100 100 16 [o5]

/-- A concrete creature one sensing step away from the o5 stroke, facing
it: its first ray sample lands on frame pixel (30, 50). -/
noncomputable def c5Creature : Creature :=
  { x := 29, y := 50, angle := 0, score := 0, brain := zeroBrain }

/-- A concrete frame holding a single occupied pixel at (31, 50); used to
witness the zero-border sensing/death agreement. -/
def senseFrame : ℤ → ℤ → Bool :=
  fun p q => decide (p = 31 ∧ q = 50)

/-- A concrete creature at (30, 50) heading along the positive x axis, one
unit away from the occupied pixel of senseFrame. -/
noncomputable def c5w : Creature :=
  { x := 30, y := 50, angle := 0, score := 0, brain := zeroBrain }

/-- All-zero weight slice in the heap store. -/
def w0 : List ℚ :=
  List.replicate brainWeightsLen 0

/-- Heap store holding a single weight slice, referenced both by the dead
creature below and by the hall-of-fame entry recorded at its death. -/
def hStore0 : List (List ℚ) :=
  [w0]

/-- A dead creature with score 100 whose brain's backing slice is store
slot 0. -/
def hDead0 : HCreature :=
  { score := 100, ref := 0 }

/-! ## Lemmas and claim theorems -/

lemma getD_replicate_self {α : Type} (n i : ℕ) (c : α) :
    (List.replicate n c).getD i c = c := by
  induction n generalizing i with
  | zero => simp
  | succ n ih =>
    cases i with
    | zero => simp [List.replicate]
    | succ i => simp [List.replicate, ih i]

lemma writeInputs_apply (x0 : ℕ → ℝ) (input : List ℝ) (n k : ℕ) :
    writeInputs x0 input n k =
      if 1 ≤ k ∧ k ≤ n then input.getD (k - 1) 0 else x0 k := by
  induction n with
  | zero =>
    rw [if_neg (by omega)]
    rfl
  | succ n ih =>
    simp only [writeInputs, Function.update_apply, ih]
    by_cases hk : k = n + 1
    · subst hk
      rw [if_pos rfl, if_pos (by omega)]
      simp
    · rw [if_neg hk]
      by_cases h1 : 1 ≤ k ∧ k ≤ n
      · rw [if_pos h1, if_pos (by omega)]
      · rw [if_neg h1, if_neg (by omega)]

lemma writeMemory_apply (x0 out : ℕ → ℝ) (j m k : ℕ) :
    writeMemory x0 out j m k =
      if j + 2 ≤ k ∧ k < j + 2 + m then out (k - j) else x0 k := by
  induction m with
  | zero =>
    rw [if_neg (by omega)]
    rfl
  | succ m ih =>
    simp only [writeMemory, Function.update_apply, ih]
    by_cases hk : k = j + (m + 2)
    · subst hk
      rw [if_pos rfl, if_pos (by omega)]
      congr 1
      omega
    · rw [if_neg hk]
      by_cases h1 : j + 2 ≤ k ∧ k < j + 2 + m
      · rw [if_pos h1, if_pos (by omega)]
      · rw [if_neg h1, if_neg (by omega)]

lemma writeInOut_apply (io0 : ℕ → ℝ) (w : List ℚ) (xv : ℕ → ℝ) (m k : ℕ) :
    writeInOut io0 w xv m k =
      if 1 ≤ k ∧ k ≤ m then tanhActivation w ((k - 1) * inWeightLen) inWeightLen xv
      else io0 k := by
  induction m with
  | zero =>
    rw [if_neg (by omega)]
    rfl
  | succ m ih =>
    simp only [writeInOut, Function.update_apply, ih]
    by_cases hk : k = m + 1
    · subst hk
      rw [if_pos rfl, if_pos (by omega)]
      simp
    · rw [if_neg hk]
      by_cases h1 : 1 ≤ k ∧ k ≤ m
      · rw [if_pos h1, if_pos (by omega)]
      · rw [if_neg h1, if_neg (by omega)]

lemma writeOutput_apply (o0 : ℕ → ℝ) (w : List ℚ) (io : ℕ → ℝ) (m k : ℕ) :
    writeOutput o0 w io m k =
      if k < m then tanhActivation w (inLayerLen * inWeightLen + k * outWeightLen) outWeightLen io
      else o0 k := by
  induction m with
  | zero =>
    rw [if_neg (by omega)]
    rfl
  | succ m ih =>
    simp only [writeOutput, Function.update_apply, ih]
    by_cases hk : k = m
    · subst hk
      rw [if_pos rfl, if_pos (by omega)]
    · rw [if_neg hk]
      by_cases h1 : k < m
      · rw [if_pos h1, if_pos (by omega)]
      · rw [if_neg h1, if_neg (by omega)]

/-- The closed form of the effective input vector of one Step call on a
length-12 input: slot 0 and slot 24 keep the old x values (slot 24 is
never written by any step), slots 1..11 hold the first eleven sensor
values, and slots 12..23 hold the previous outputs 2..13 — the write of
output[2] to slot 12 lands on the slot the twelfth sensor value had just
been written to. -/
lemma effectiveX_apply (b : Brain) (input : List ℝ)
    (h : input.length = numBrainInputs) (k : ℕ) :
    effectiveX b input k =
      if 12 ≤ k ∧ k ≤ 23 then b.output (k - 10)
      else if 1 ≤ k ∧ k ≤ 11 then input.getD (k - 1) 0
      else b.x k := by
  have h12 : input.length = 12 := h
  unfold effectiveX
  rw [h12]
  show writeMemory (writeInputs b.x input 12) b.output 10 12 k = _
  rw [writeMemory_apply, writeInputs_apply]
  by_cases h1 : 12 ≤ k ∧ k ≤ 23
  · rw [if_pos (by omega), if_pos h1]
  · rw [if_neg (by omega), if_neg h1]
    by_cases h2 : 1 ≤ k ∧ k ≤ 11
    · rw [if_pos (by omega), if_pos h2]
    · rw [if_neg (by omega), if_neg h2]

/-- Claim C3 (code evaluation): because Step writes the previous output[2]
over slot 12 — the slot that holds the twelfth sensor input — the returned
(turn, move) and the entire post-step brain state are unchanged when only
sensor input 11 changes: the last sensor input can never influence the
output, contrary to the claim that every sensor input keeps its own slot. -/
theorem step_ignores_last_sensor (b : Brain) (u v : List ℝ)
    (hu : u.length = numBrainInputs) (hv : v.length = numBrainInputs)
    (h : ∀ i, i < 11 → u.getD i 0 = v.getD i 0) :
    step b u = step b v := by
  have hx : effectiveX b u = effectiveX b v := by
    funext k
    rw [effectiveX_apply b u hu, effectiveX_apply b v hv]
    by_cases h1 : 12 ≤ k ∧ k ≤ 23
    · rw [if_pos h1, if_pos h1]
    · rw [if_neg h1, if_neg h1]
      by_cases h2 : 1 ≤ k ∧ k ≤ 11
      · rw [if_pos h2, if_pos h2, h (k - 1) (by omega)]
      · rw [if_neg h2, if_neg h2]
  unfold step
  rw [hu, hv, if_pos rfl, if_pos rfl]
  unfold stepCore
  rw [hx]

/-- Witness for step_ignores_last_sensor: two concrete inputs differing
exactly in sensor slot 11 give identical step results on a concrete brain. -/
theorem step_ignores_last_sensor_witness :
    step zeroBrain (List.replicate 12 (0 : ℝ)) =
      step zeroBrain (List.replicate 11 (0 : ℝ) ++ [1]) :=
  step_ignores_last_sensor zeroBrain _ _ (by simp [numBrainInputs])
    (by simp [numBrainInputs])
    (by
      intro i hi
      rw [List.getD_append _ _ _ _ (by simpa using by omega)]
      rw [getD_replicate_self, getD_replicate_self])

/-- Claim C9: SetWeights(GetWeights(b)) re-binds the brain to its own
backing weight vector at the same fixed layout offsets, so the round trip
is the identity on the brain and Step after it agrees with Step before it
on every input of the correct length. -/
theorem setWeights_getWeights_roundtrip (b : Brain) (input : List ℝ)
    (h : input.length = numBrainInputs) :
    setWeights (getWeights b) b = b ∧
      step (setWeights (getWeights b) b) input = step b input :=
  ⟨rfl, rfl⟩

/-- Witness for setWeights_getWeights_roundtrip at a concrete brain and a
concrete length-12 input. -/
theorem setWeights_getWeights_roundtrip_witness :
    setWeights (getWeights zeroBrain) zeroBrain = zeroBrain ∧
      step (setWeights (getWeights zeroBrain) zeroBrain) (List.replicate 12 (0 : ℝ)) =
        step zeroBrain (List.replicate 12 (0 : ℝ)) :=
  setWeights_getWeights_roundtrip zeroBrain _ (by simp [numBrainInputs])

/-- Claim C10: Step fails (the contract-violation panic, modelled as none)
exactly when the input length differs from numBrainInputs; on any input of
length numBrainInputs it returns the (turn, move) pair and updated state
computed by stepCore. -/
theorem step_none_iff_bad_length (b : Brain) (input : List ℝ) :
    (step b input = none ↔ input.length ≠ numBrainInputs) ∧
      (input.length = numBrainInputs → step b input = some (stepCore b input)) := by
  unfold step
  constructor
  · by_cases h : input.length = numBrainInputs
    · simp [h]
    · simp [h]
  · intro h
    simp [h]

/-- Witness for step_none_iff_bad_length: at a concrete brain, a correct
length-12 input yields a some result and a length-3 input yields none. -/
theorem step_none_iff_bad_length_witness :
    step zeroBrain (List.replicate 12 (0 : ℝ)) = some (stepCore zeroBrain (List.replicate 12 (0 : ℝ))) ∧
      step zeroBrain [0, 0, 0] = none :=
  ⟨(step_none_iff_bad_length zeroBrain _).2 (by simp [numBrainInputs]),
   (step_none_iff_bad_length zeroBrain _).1.2 (by simp [numBrainInputs])⟩

lemma weightsEqual_iff (a b : List ℚ) : weightsEqual a b = true ↔ a = b := by
  simp only [weightsEqual, Bool.and_eq_true, beq_iff_eq, List.all_eq_true, List.mem_range]
  constructor
  · rintro ⟨hlen, hget⟩
    apply List.ext_getElem hlen.symm.symm
    intro i h1 h2
    have := hget i h1
    rwa [List.getD_eq_getElem a 0 h1, List.getD_eq_getElem b 0 h2] at this
  · rintro rfl
    exact ⟨rfl, fun i _ => rfl⟩

lemma foldTop_nil (w : List ℚ) (sc : ℤ) :
    foldTop [] w sc = [{ score := sc, weights := w }] :=
  rfl

lemma foldTop_cons_eq (e : TopCreature) (r : List TopCreature) (w : List ℚ) (sc : ℤ)
    (h : e.weights = w) :
    foldTop (e :: r) w sc =
      (if e.score < sc then { score := sc, weights := e.weights } else e) :: r := by
  have hb : weightsEqual e.weights w = true := (weightsEqual_iff _ _).2 h
  simp only [foldTop, firstIdxW, hb, if_true, List.getD_cons_zero]
  by_cases hs : e.score < sc
  · simp [hs]
  · simp [hs]

lemma foldTop_cons_ne (e : TopCreature) (r : List TopCreature) (w : List ℚ) (sc : ℤ)
    (h : e.weights ≠ w) :
    foldTop (e :: r) w sc = e :: foldTop r w sc := by
  have hb : weightsEqual e.weights w = false := by
    rw [Bool.eq_false_iff]
    intro hc
    exact h ((weightsEqual_iff _ _).1 hc)
  simp only [foldTop, firstIdxW, hb, Bool.false_eq_true, if_false]
  cases h' : firstIdxW r w with
  | none => simp [h']
  | some i =>
    simp only [h', Option.map_some, List.getD_cons_succ, List.set_cons_succ]
    exact (apply_ite (fun l => e :: l) _ _ _).symm

lemma lookupW_foldTop (best : List TopCreature) (w : List ℚ) (sc : ℤ) (w' : List ℚ) :
    lookupW (foldTop best w sc) w' =
      if w' = w then maxCombine (lookupW best w) sc else lookupW best w' := by
  induction best with
  | nil =>
    by_cases hw : w' = w
    · subst hw
      simp [foldTop_nil, lookupW, maxCombine]
    · rw [if_neg hw]
      simp only [foldTop_nil, lookupW]
      rw [if_neg fun hc => hw hc.symm]
  | cons e r ih =>
    by_cases he : e.weights = w
    · rw [foldTop_cons_eq e r w sc he]
      by_cases hw : w' = w
      · subst hw
        by_cases hs : e.score < sc
        · rw [if_pos hs]
          simp [lookupW, he, maxCombine, hs]
        · rw [if_neg hs]
          simp [lookupW, he, maxCombine, hs]
      · rw [if_neg hw]
        have hne : e.weights ≠ w' := by
          rw [he]
          exact fun hc => hw hc.symm
        by_cases hs : e.score < sc
        · rw [if_pos hs]
          simp [lookupW, hne]
        · rw [if_neg hs]
    · rw [foldTop_cons_ne e r w sc he]
      by_cases hew : e.weights = w'
      · have hw : w' ≠ w := fun hc => he (hew.trans hc)
        rw [if_neg hw]
        simp [lookupW, hew]
      · by_cases hw : w' = w
        · subst hw
          simp [lookupW, he, hew, ih]
        · simp [lookupW, hew, ih, hw]

lemma mem_foldTop (best : List TopCreature) (w : List ℚ) (sc : ℤ) (e : TopCreature)
    (h : e ∈ foldTop best w sc) : e ∈ best ∨ e.weights = w := by
  induction best with
  | nil =>
    rw [foldTop_nil] at h
    rcases List.mem_singleton.1 h with rfl
    exact Or.inr rfl
  | cons a r ih =>
    by_cases ha : a.weights = w
    · rw [foldTop_cons_eq a r w sc ha] at h
      rcases List.mem_cons.1 h with h1 | h1
      · by_cases hs : a.score < sc
        · rw [if_pos hs] at h1
          exact Or.inr (h1 ▸ ha)
        · rw [if_neg hs] at h1
          exact Or.inl (h1 ▸ List.mem_cons_self a r)
      · exact Or.inl (List.mem_cons_of_mem a h1)
    · rw [foldTop_cons_ne a r w sc ha] at h
      rcases List.mem_cons.1 h with h1 | h1
      · exact Or.inl (h1 ▸ List.mem_cons_self a r)
      · rcases ih h1 with h2 | h2
        · exact Or.inl (List.mem_cons_of_mem a h2)
        · exact Or.inr h2

lemma foldTop_pairwise (best : List TopCreature) (w : List ℚ) (sc : ℤ)
    (hp : best.Pairwise fun a b => a.weights ≠ b.weights) :
    (foldTop best w sc).Pairwise fun a b => a.weights ≠ b.weights := by
  induction best with
  | nil =>
    rw [foldTop_nil]
    exact List.pairwise_singleton _ _
  | cons a r ih =>
    rcases List.pairwise_cons.1 hp with ⟨hhead, htail⟩
    by_cases ha : a.weights = w
    · rw [foldTop_cons_eq a r w sc ha]
      refine List.pairwise_cons.2 ⟨?_, htail⟩
      intro b hb
      by_cases hs : a.score < sc
      · simpa [hs] using hhead b hb
      · simpa [hs] using hhead b hb
    · rw [foldTop_cons_ne a r w sc ha]
      refine List.pairwise_cons.2 ⟨?_, ih htail⟩
      intro b hb
      rcases mem_foldTop r w sc b hb with h1 | h1
      · exact hhead b h1
      · exact fun hc => ha (hc.trans h1)

lemma lookupW_self_of_pairwise (best : List TopCreature)
    (hp : best.Pairwise fun a b => a.weights ≠ b.weights) :
    ∀ e ∈ best, lookupW best e.weights = some e.score := by
  induction best with
  | nil => intro e he; cases he
  | cons a r ih =>
    rcases List.pairwise_cons.1 hp with ⟨hhead, htail⟩
    intro e he
    rcases List.mem_cons.1 he with rfl | h1
    · simp [lookupW]
    · simp only [lookupW]
      rw [if_neg (hhead e h1), ih htail e h1]

lemma maxFolded_spec (l : List ℤ) (o : Option ℤ) (m : ℤ)
    (h : maxFolded o l = some m) :
    (m ∈ l ∨ o = some m) ∧ (∀ x ∈ l, x ≤ m) ∧ ∀ s, o = some s → s ≤ m := by
  induction l generalizing o with
  | nil =>
    refine ⟨Or.inr h, by simp, ?_⟩
    intro s hs
    rw [hs] at h
    cases h
    exact le_refl _
  | cons sc rest ih =>
    have h2 : maxFolded (maxCombine o sc) rest = some m := h
    rcases ih (maxCombine o sc) h2 with ⟨hmem, hub, hcomb⟩
    have hsc : sc ≤ m := by
      cases o with
      | none => exact hcomb sc rfl
      | some s0 =>
        by_cases hlt : s0 < sc
        · exact hcomb sc (by simp [maxCombine, hlt])
        · exact le_trans (by omega) (hcomb s0 (by simp [maxCombine, hlt]))
    refine ⟨?_, ?_, ?_⟩
    · rcases hmem with h1 | h1
      · exact Or.inl (List.mem_cons_of_mem sc h1)
      · cases o with
        | none =>
          simp only [maxCombine] at h1
          rw [Option.some_inj] at h1
          subst h1
          exact Or.inl (List.mem_cons_self sc rest)
        | some s0 =>
          by_cases hlt : s0 < sc
          · simp only [maxCombine, hlt, if_true] at h1
            rw [Option.some_inj] at h1
            subst h1
            exact Or.inl (List.mem_cons_self sc rest)
          · simp only [maxCombine, hlt, if_false] at h1
            rw [Option.some_inj] at h1
            subst h1
            exact Or.inr rfl
    · intro x hx
      rcases List.mem_cons.1 hx with rfl | h1
      · exact hsc
      · exact hub x h1
    · intro s hs
      cases o with
      | none => cases hs
      | some s0 =>
        cases hs
        by_cases hlt : s < sc
        · exact le_trans (le_of_lt hlt) hsc
        · exact hcomb s (by simp [maxCombine, hlt])

lemma lookupW_foldAll (folds : List (List ℚ × ℤ)) (best : List TopCreature) (w' : List ℚ) :
    lookupW (foldAll best folds) w' =
      maxFolded (lookupW best w')
        ((folds.filter fun p => decide (p.1 = w')).map fun p => p.2) := by
  induction folds generalizing best with
  | nil => rfl
  | cons p rest ih =>
    have h1 : foldAll best (p :: rest) = foldAll (foldTop best p.1 p.2) rest := rfl
    rw [h1, ih, lookupW_foldTop]
    by_cases hw : w' = p.1
    · subst hw
      simp [maxFolded]
    · rw [if_neg hw]
      have : decide (p.1 = w') = false := by simpa using fun hc => hw hc.symm
      simp [this]

lemma pairwise_foldAll (folds : List (List ℚ × ℤ)) (best : List TopCreature)
    (hp : best.Pairwise fun a b => a.weights ≠ b.weights) :
    (foldAll best folds).Pairwise fun a b => a.weights ≠ b.weights := by
  induction folds generalizing best with
  | nil => exact hp
  | cons p rest ih => exact ih _ (foldTop_pairwise best p.1 p.2 hp)

/-- Claim C6: starting from an empty hall of fame, after any sequence of
folds no two entries have equal weight vectors, and each entry's score is
the greatest score ever folded for exactly that vector. -/
theorem hallOfFame_fold_invariant (folds : List (List ℚ × ℤ)) :
    ((foldAll [] folds).Pairwise fun a b => a.weights ≠ b.weights) ∧
      ∀ e ∈ foldAll [] folds, IsGreatest {sc : ℤ | (e.weights, sc) ∈ folds} e.score := by
  have hpw := pairwise_foldAll folds [] List.Pairwise.nil
  refine ⟨hpw, ?_⟩
  intro e he
  have hself := lookupW_self_of_pairwise _ hpw e he
  rw [lookupW_foldAll] at hself
  have hlook : lookupW ([] : List TopCreature) e.weights = none := rfl
  rw [hlook] at hself
  rcases maxFolded_spec _ _ _ hself with ⟨hmem, hub, _⟩
  constructor
  · rcases hmem with h1 | h1
    · rcases List.mem_map.1 h1 with ⟨p, hp, hp2⟩
      rcases List.mem_filter.1 hp with ⟨hpf, hpd⟩
      have : p.1 = e.weights := by simpa using hpd
      have hpe : p = (e.weights, e.score) := by
        rcases p with ⟨pa, pb⟩
        simp only at hp2 this
        rw [this, hp2]
      show (e.weights, e.score) ∈ folds
      rw [hpe] at hpf
      exact hpf
    · cases h1
  · intro sc hsc
    refine hub sc (List.mem_map.2 ⟨(e.weights, sc), List.mem_filter.2 ⟨hsc, by simp⟩, rfl⟩)

/-- Witness for hallOfFame_fold_invariant: folding score 50 and then score
30 for the same vector leaves one entry whose score 50 is the greatest
score folded for that vector. -/
theorem hallOfFame_fold_invariant_witness :
    IsGreatest {sc : ℤ | (([(1 : ℚ)], sc)) ∈ [(([(1 : ℚ)]), (50 : ℤ)), (([(1 : ℚ)]), 30)]}
      (50 : ℤ) :=
  (hallOfFame_fold_invariant [([(1 : ℚ)], 50), ([(1 : ℚ)], 30)]).2
    { score := 50, weights := [(1 : ℚ)] } (by decide)

lemma truncLoop_eq_take :
    ∀ i : ℕ, ∀ l : List TopCreature, l.length = i + 1 → maxCreatures ≤ i →
      truncLoop i l = l.take (maxCreatures + 1) := by
  intro i
  induction i with
  | zero =>
    intro l _ hi
    simp [maxCreatures, minCreatures] at hi
  | succ i ih =>
    intro l hl hi
    simp only [truncLoop]
    by_cases h20 : maxCreatures < i + 1
    · rw [if_pos h20]
      rw [ih l.dropLast (by simp [hl]) (by omega)]
      rw [List.dropLast_eq_take, List.take_take]
      have hm : min (maxCreatures + 1) (l.length - 1) = maxCreatures + 1 := by
        have : maxCreatures = 20 := rfl
        omega
      rw [hm]
    · rw [if_neg h20]
      rw [List.take_of_length_le (by omega)]

/-- Claim C7 counterexample: a 41-entry hall of fame is truncated to 21
entries, not to the claimed maxCreatures = 20. -/
theorem truncate_leaves_21_cex :
    (truncateBest (List.replicate 41 defaultTop)).length = 21 ∧ (21 : ℕ) ≠ maxCreatures := by
  constructor
  · rw [truncateBest, if_pos (by simp [maxBestCreatures, maxCreatures, minCreatures])]
    rw [List.length_replicate]
    rw [truncLoop_eq_take 40 _ (by simp) (by simp [maxCreatures, minCreatures])]
    simp [maxCreatures, minCreatures]
  · simp [maxCreatures, minCreatures]

/-- Claim C7 as amended: when the hall of fame exceeds maxBestCreatures at
the end of a tick, the truncation loop drops entries from the tail until
maxCreatures + 1 = 21 entries remain (the loop removes the last entry only
while its index exceeds maxCreatures, so index maxCreatures survives). -/
theorem truncate_take_spec (l : List TopCreature) (h : maxBestCreatures < l.length) :
    truncateBest l = l.take (maxCreatures + 1) ∧
      (truncateBest l).length = maxCreatures + 1 := by
  have h41 : 40 < l.length := by simpa [maxBestCreatures, maxCreatures, minCreatures] using h
  have h1 : truncateBest l = l.take (maxCreatures + 1) := by
    rw [truncateBest, if_pos h]
    have hl : l.length = (l.length - 1) + 1 := by omega
    rw [truncLoop_eq_take (l.length - 1) l hl (by simp [maxCreatures, minCreatures]; omega)]
  refine ⟨h1, ?_⟩
  rw [h1, List.length_take]
  simp [maxCreatures, minCreatures]
  omega

/-- Witness for truncate_take_spec at a concrete 41-entry hall of fame. -/
theorem truncate_take_spec_witness :
    truncateBest (List.replicate 41 defaultTop) =
        (List.replicate 41 defaultTop).take (maxCreatures + 1) ∧
      (truncateBest (List.replicate 41 defaultTop)).length = maxCreatures + 1 :=
  truncate_take_spec _ (by simp [maxBestCreatures, maxCreatures, minCreatures])

lemma spawnW_spec (f : Rng) (w : List ℚ) (st : SimState) :
    ∃ c : Creature,
      (spawnCreatureWithWeights f w st).creatures = st.creatures ++ [c] ∧
        c.brain.allWeights = w ∧
        (spawnCreatureWithWeights f w st).best = st.best ∧
        (spawnCreatureWithWeights f w st).obstacles = st.obstacles ∧
        (spawnCreatureWithWeights f w st).width = st.width ∧
        (spawnCreatureWithWeights f w st).height = st.height ∧
        (spawnCreatureWithWeights f w st).border = st.border := by
  unfold spawnCreatureWithWeights
  cases h : st.pool.getLast? with
  | some c0 => exact ⟨_, rfl, rfl, rfl, rfl, rfl, rfl, rfl⟩
  | none => exact ⟨_, rfl, rfl, rfl, rfl, rfl, rfl, rfl⟩

lemma spawnR_spec (f : Rng) (st : SimState) :
    ∃ c : Creature,
      (spawnRandomCreature f st).creatures = st.creatures ++ [c] ∧
        (spawnRandomCreature f st).best = st.best ∧
        (spawnRandomCreature f st).obstacles = st.obstacles := by
  unfold spawnRandomCreature
  cases h : st.pool.getLast? with
  | some c0 => exact ⟨_, rfl, rfl, rfl⟩
  | none => exact ⟨_, rfl, rfl, rfl⟩

lemma randomLoop_spec (f : Rng) (r : ℕ) (st : SimState) :
    ∃ added : List Creature,
      (randomLoop f r st).creatures = st.creatures ++ added ∧ added.length = r ∧
        (randomLoop f r st).best = st.best ∧
        (randomLoop f r st).obstacles = st.obstacles := by
  induction r generalizing st with
  | zero => exact ⟨[], by simp [randomLoop], rfl, rfl, rfl⟩
  | succ r ih =>
    rcases spawnR_spec f st with ⟨c, hc, hb, ho⟩
    rcases ih (spawnRandomCreature f st) with ⟨added, h1, h2, h3, h4⟩
    refine ⟨c :: added, ?_, by simp [h2], ?_, ?_⟩
    · show (randomLoop f r (spawnRandomCreature f st)).creatures = _
      rw [h1, hc, List.append_assoc]
      rfl
    · show (randomLoop f r (spawnRandomCreature f st)).best = _
      rw [h3, hb]
    · show (randomLoop f r (spawnRandomCreature f st)).obstacles = _
      rw [h4, ho]

lemma cloneLoop_spec (f : Rng) (lW : ℕ) (r : ℕ) :
    ∀ (i : ℕ) (st : SimState),
      (cloneLoop f lW r i st).best = st.best ∧
        (cloneLoop f lW r i st).obstacles = st.obstacles ∧
        ∃ added : List Creature,
          (cloneLoop f lW r i st).creatures = st.creatures ++ added ∧
            added.length = r ∧
            ∀ t, t < r → (added.getD t defaultCreature).brain.allWeights =
              copyTo lW ((st.best.getD ((i + t) % st.best.length) defaultTop).weights) := by
  induction r with
  | zero =>
    intro i st
    exact ⟨rfl, rfl, [], by simp [cloneLoop], rfl, fun t ht => absurd ht (by omega)⟩
  | succ r ih =>
    intro i st
    rcases spawnW_spec f (copyTo lW ((st.best.getD (i % st.best.length) defaultTop).weights)) st
      with ⟨c, hc, hcw, hb, ho, _, _, _⟩
    set st1 := spawnCreatureWithWeights f
      (copyTo lW ((st.best.getD (i % st.best.length) defaultTop).weights)) st with hst1
    rcases ih (i + 1) st1 with ⟨ihb, iho, added, h1, h2, h3⟩
    have hstep : cloneLoop f lW (r + 1) i st = cloneLoop f lW r (i + 1) st1 := rfl
    refine ⟨by rw [hstep, ihb, hb], by rw [hstep, iho, ho], c :: added, ?_, by simp [h2], ?_⟩
    · rw [hstep, h1, hc, List.append_assoc]
      rfl
    · intro t ht
      cases t with
      | zero =>
        simpa using hcw
      | succ t =>
        have h4 := h3 t (by omega)
        rw [hb] at h4
        simpa [Nat.add_assoc, Nat.add_comm 1 t] using h4

lemma crossLoop_zero (f : Rng) (lW offset : ℕ) (st : SimState) :
    crossLoop f lW 0 offset st = st :=
  rfl

lemma nToSpawn_ge_quarter (n : ℕ) : n / 4 ≤ (if n / 2 < 1 then 1 else n / 2) := by
  by_cases h : n / 2 < 1
  · rw [if_pos h]
    omega
  · rw [if_neg h]
    omega

lemma nToSpawn_eq_max (n : ℕ) : (if n / 2 < 1 then 1 else n / 2) = max 1 (n / 2) := by
  by_cases h : n / 2 < 1
  · rw [if_pos h]
    omega
  · rw [if_neg h]
    omega

/-- With a non-empty hall of fame, SpawnCreatures is exactly the clone
loop followed by the random loop: the crossover loop's remaining iteration
count n/4 - max(1, n/2) is zero, so it contributes nothing. -/
lemma spawnCreatures_eq (f : Rng) (n : ℕ) (st : SimState) (hb : st.best ≠ []) :
    spawnCreatures f n st =
      randomLoop f (n - max 1 (n / 2))
        (cloneLoop f ((st.best.getD 0 defaultTop).weights.length) (max 1 (n / 2)) 0 st) := by
  have hL : 0 < st.best.length := List.length_pos.2 hb
  have hzero : n / 4 - (if n / 2 < 1 then 1 else n / 2) = 0 :=
    Nat.sub_eq_zero_of_le (nToSpawn_ge_quarter n)
  have hzero' : n / 4 - max 1 (n / 2) = 0 := by
    rw [← nToSpawn_eq_max]
    exact hzero
  unfold spawnCreatures
  rw [if_pos hL]
  simp only [nToSpawn_eq_max, hzero', crossLoop_zero, Nat.add_zero]
  by_cases he : max 1 (n / 2) = n
  · rw [if_pos he]
    rw [he, Nat.sub_self]
    rfl
  · rw [if_neg he]

lemma spawnCreatures_len_of_pos (f : Rng) (n : ℕ) (st : SimState) (hn : 1 ≤ n) :
    (spawnCreatures f n st).creatures.length = st.creatures.length + n := by
  by_cases hb : st.best = []
  · have hL : ¬ 0 < st.best.length := by simp [hb]
    unfold spawnCreatures
    rw [if_neg hL]
    rcases randomLoop_spec f n st with ⟨added, h1, h2, _, _⟩
    rw [h1, List.length_append, h2]
  · rw [spawnCreatures_eq f n st hb]
    rcases cloneLoop_spec f ((st.best.getD 0 defaultTop).weights.length) (max 1 (n / 2)) 0 st
      with ⟨_, _, added, h1, h2, _⟩
    rcases randomLoop_spec f (n - max 1 (n / 2)) _ with ⟨added2, h3, h4, _, _⟩
    rw [h3, h1, List.length_append, List.length_append, h2, h4]
    have : max 1 (n / 2) ≤ n := by omega
    omega

/-- Claim C8: with a non-empty hall of fame, SpawnCreatures n is exactly
max(1, n/2) clones of hall-of-fame entries (cycling by index modulo the
hall size, each clone's brain carrying a copy of the entry's weights)
followed by n - max(1, n/2) creatures produced by the fully random spawn
path; the crossover branch contributes zero creatures.  For n ≥ 1 this
spawns exactly n creatures; for n = 0 it nevertheless spawns one clone. -/
theorem spawnCreatures_decomposition (f : Rng) (st : SimState) (n : ℕ) (hb : st.best ≠ []) :
    spawnCreatures f n st =
      randomLoop f (n - max 1 (n / 2))
        (cloneLoop f ((st.best.getD 0 defaultTop).weights.length) (max 1 (n / 2)) 0 st) ∧
    (spawnCreatures f n st).creatures.length =
      st.creatures.length + max 1 (n / 2) + (n - max 1 (n / 2)) ∧
    (1 ≤ n → (spawnCreatures f n st).creatures.length = st.creatures.length + n) ∧
    (n = 0 → (spawnCreatures f n st).creatures.length = st.creatures.length + 1) ∧
    ∀ t, t < max 1 (n / 2) →
      ((spawnCreatures f n st).creatures.getD (st.creatures.length + t)
          defaultCreature).brain.allWeights =
        copyTo ((st.best.getD 0 defaultTop).weights.length)
          ((st.best.getD (t % st.best.length) defaultTop).weights) := by
  have heq := spawnCreatures_eq f n st hb
  rcases cloneLoop_spec f ((st.best.getD 0 defaultTop).weights.length) (max 1 (n / 2)) 0 st
    with ⟨_, _, added, h1, h2, h3⟩
  rcases randomLoop_spec f (n - max 1 (n / 2)) _ with ⟨added2, h4, h5, _, _⟩
  have hcre : (spawnCreatures f n st).creatures = st.creatures ++ (added ++ added2) := by
    rw [heq, h4, h1, List.append_assoc]
  have hlen : (spawnCreatures f n st).creatures.length =
      st.creatures.length + max 1 (n / 2) + (n - max 1 (n / 2)) := by
    rw [hcre]
    simp [h2, h5, Nat.add_assoc]
  refine ⟨heq, hlen, ?_, ?_, ?_⟩
  · intro hn
    rw [hlen]
    have : max 1 (n / 2) ≤ n := by omega
    omega
  · intro hn
    subst hn
    rw [hlen]
    simp
  · intro t ht
    rw [hcre, List.getD_append_right _ _ _ _ (by omega), Nat.add_sub_cancel_left]
    rw [List.getD_append _ _ _ _ (by rw [h2]; exact ht)]
    simpa using h3 t ht

/-- Witness for spawnCreatures_decomposition: a request for 3 creatures on
a one-entry hall of fame spawns exactly 3. -/
theorem spawnCreatures_decomposition_witness :
    (spawnCreatures constRng 3
        { width := 100, height := 100, border := 16, creatures := [], pool := [],
          obstacles := [], best := [{ score := 5, weights := [1, 2] }], tick := 0,
          k := 0 }).creatures.length = 0 + 3 :=
  (spawnCreatures_decomposition constRng _ 3 (by simp)).2.2.1 (by omega)

lemma shuffleAux_length {α : Type} (ints : ℕ → ℕ) :
    ∀ (i : ℕ) (l : List α) (k : ℕ), (shuffleAux ints i l k).1.length = l.length := by
  intro i
  induction i with
  | zero => intro l k; rfl
  | succ i ih =>
    intro l k
    show (shuffleAux ints i (listSwap l (i + 1) (ints k % (i + 2))) (k + 1)).1.length = _
    rw [ih]
    unfold listSwap
    cases h1 : l.get? (i + 1) with
    | none => rfl
    | some a =>
      cases h2 : l.get? (ints k % (i + 2)) with
      | none => rfl
      | some b => simp

/-- Claim C2 as amended: the population floor holds at the point within
the tick where the removal pass starts: after the spawn phases and the
shuffle, at least minCreatures creatures are active (the death pass runs
after this point, so the post-tick count can fall below the floor; it is
restored at the start of the next tick). -/
theorem preDeath_floor (f : Rng) (st : SimState) :
    minCreatures ≤ (preDeath f st).creatures.length := by
  unfold preDeath shufflePhase
  rw [shuffleAux_length]
  set s3 := evolutionPhase f (obstaclesPhase f st) with hs3
  show minCreatures ≤ (floorPhase f s3).creatures.length
  unfold floorPhase
  by_cases h : s3.creatures.length < minCreatures
  · rw [if_pos h]
    rw [spawnCreatures_len_of_pos f _ s3 (by omega)]
    omega
  · rw [if_neg h]
    omega

lemma goInt_intCast (n : ℤ) : goInt (n : ℝ) = n := by
  unfold goInt
  split
  · exact Int.floor_intCast n
  · exact Int.ceil_intCast n

lemma xyDist_cast_le (a b p q : ℤ) (r : ℕ) :
    xyDist (a : ℝ) (b : ℝ) (p : ℝ) (q : ℝ) ≤ (r : ℝ) ↔
      (a - p) ^ 2 + (b - q) ^ 2 ≤ ((r : ℤ)) ^ 2 := by
  unfold xyDist
  rw [Real.sqrt_le_left (by positivity)]
  rw [show ((a : ℝ) - p) ^ 2 + ((b : ℝ) - q) ^ 2 = (((a - p) ^ 2 + (b - q) ^ 2 : ℤ) : ℝ) by
    push_cast
    ring]
  rw [show ((r : ℝ)) ^ 2 = (((r : ℤ) ^ 2 : ℤ) : ℝ) by push_cast; ring]
  exact Int.cast_le

lemma radius_cast : ((creatureRadius : ℕ) : ℤ) = 6 :=
  rfl

lemma dead_iff_deadZ (frame : ℤ → ℤ → Bool) (border : ℕ) (c : Creature) (X Y : ℤ)
    (hx : c.x = (X : ℝ)) (hy : c.y = (Y : ℝ)) :
    Dead frame border c ↔ deadZ frame border X Y = true := by
  have hgx : goInt ((border : ℝ) + c.x) = (border : ℤ) + X := by
    rw [hx, show ((border : ℝ) + (X : ℝ)) = (((border : ℤ) + X : ℤ) : ℝ) by push_cast; ring,
      goInt_intCast]
  have hgy : goInt ((border : ℝ) + c.y) = (border : ℤ) + Y := by
    rw [hy, show ((border : ℝ) + (Y : ℝ)) = (((border : ℤ) + Y : ℤ) : ℝ) by push_cast; ring,
      goInt_intCast]
  have hdist : ∀ cx cy : ℤ,
      (xyDist ((border : ℝ) + c.x) ((border : ℝ) + c.y) cx cy ≤ (creatureRadius : ℝ) ↔
        ((border : ℤ) + X - cx) ^ 2 + ((border : ℤ) + Y - cy) ^ 2 ≤ (creatureRadius : ℤ) ^ 2) := by
    intro cx cy
    rw [hx, hy,
      show ((border : ℝ) + (X : ℝ)) = (((border : ℤ) + X : ℤ) : ℝ) by push_cast; ring,
      show ((border : ℝ) + (Y : ℝ)) = (((border : ℤ) + Y : ℤ) : ℝ) by push_cast; ring,
      show ((creatureRadius : ℕ) : ℝ) = (((creatureRadius : ℤ)) : ℝ) by push_cast; rfl]
    exact xyDist_cast_le _ _ _ _ _
  constructor
  · rintro ⟨cy, h1, h2, cx, h3, h4, hd, hframe⟩
    rw [hgy] at h1 h2
    rw [hgx] at h3 h4
    rw [radius_cast] at h1 h2 h3 h4
    unfold deadZ
    rw [List.any_eq_true]
    refine ⟨(cy - ((border : ℤ) + Y - 6)).toNat,
      List.mem_range.2 (by have h13 : 2 * creatureRadius + 1 = 13 := rfl; omega), ?_⟩
    rw [List.any_eq_true]
    refine ⟨(cx - ((border : ℤ) + X - 6)).toNat,
      List.mem_range.2 (by have h13 : 2 * creatureRadius + 1 = 13 := rfl; omega), ?_⟩
    rw [Bool.and_eq_true, decide_eq_true_eq]
    have ecx : (border : ℤ) + X - creatureRadius + ((cx - ((border : ℤ) + X - 6)).toNat : ℤ) = cx := by
      rw [radius_cast]
      omega
    have ecy : (border : ℤ) + Y - creatureRadius + ((cy - ((border : ℤ) + Y - 6)).toNat : ℤ) = cy := by
      rw [radius_cast]
      omega
    rw [ecx, ecy]
    exact ⟨(hdist cx cy).1 hd, hframe⟩
  · intro h
    unfold deadZ at h
    rw [List.any_eq_true] at h
    rcases h with ⟨dy, hdy, h⟩
    rw [List.any_eq_true] at h
    rcases h with ⟨dx, hdx, h⟩
    rw [Bool.and_eq_true, decide_eq_true_eq] at h
    rcases h with ⟨hsq, hframe⟩
    rw [List.mem_range] at hdy hdx
    refine ⟨(border : ℤ) + Y - creatureRadius + dy, ?_, ?_,
      (border : ℤ) + X - creatureRadius + dx, ?_, ?_, ?_, hframe⟩
    · rw [hgy, radius_cast]
      omega
    · rw [hgy, radius_cast]
      have h13 : dy < 13 := by
        simpa [creatureRadius] using hdy
      omega
    · rw [hgx, radius_cast]
      omega
    · rw [hgx, radius_cast]
      have h13 : dx < 13 := by
        simpa [creatureRadius] using hdx
      omega
    · exact (hdist _ _).2 hsq

open Classical in
lemma deathPass_fst (frame : ℤ → ℤ → Bool) (border : ℕ) :
    ∀ (cs : List Creature) (best : List TopCreature) (pool : List Creature),
      (deathPass frame border cs best pool).1 =
        cs.filter fun c => decide (¬ Dead frame border c) := by
  intro cs
  induction cs with
  | nil => intro best pool; rfl
  | cons c rest ih =>
    intro best pool
    by_cases h : Dead frame border c
    · have hd : decide (¬ Dead frame border c) = false := by simp [h]
      simp only [deathPass, if_pos h, List.filter_cons, hd, Bool.false_eq_true, if_false]
      exact ih _ _
    · have hd : decide (¬ Dead frame border c) = true := by simp [h]
      simp only [deathPass, if_neg h, List.filter_cons, hd, if_true]
      show c :: (deathPass frame border rest best pool).1 = _
      rw [ih]

lemma doTick_creatures (sh : Obstacle → ℤ → ℤ → Bool) (f : Rng) (st : SimState) :
    (doTick sh f st).creatures =
      (deathPass (frameOf sh (preDeath f st)) (preDeath f st).border (preDeath f st).creatures
          (preDeath f st).best (preDeath f st).pool).1.map
        (act (frameOf sh (preDeath f st)) (preDeath f st).width (preDeath f st).height
          (preDeath f st).border) :=
  rfl

lemma spawnCreatures_obstacles (f : Rng) (n : ℕ) (st : SimState) :
    (spawnCreatures f n st).obstacles = st.obstacles := by
  by_cases hb : st.best = []
  · have hL : ¬ 0 < st.best.length := by simp [hb]
    unfold spawnCreatures
    rw [if_neg hL]
    rcases randomLoop_spec f n st with ⟨_, _, _, _, h⟩
    exact h
  · rw [spawnCreatures_eq f n st hb]
    rcases cloneLoop_spec f ((st.best.getD 0 defaultTop).weights.length) (max 1 (n / 2)) 0 st
      with ⟨_, ho1, _, _, _, _⟩
    rcases randomLoop_spec f (n - max 1 (n / 2)) _ with ⟨_, _, _, _, ho2⟩
    rw [ho2, ho1]

lemma evolutionPhase_obstacles (f : Rng) (st : SimState) :
    (evolutionPhase f st).obstacles = st.obstacles := by
  unfold evolutionPhase
  split
  · exact spawnCreatures_obstacles f _ st
  · rfl

lemma floorPhase_obstacles (f : Rng) (st : SimState) :
    (floorPhase f st).obstacles = st.obstacles := by
  unfold floorPhase
  split
  · exact spawnCreatures_obstacles f _ st
  · rfl

open Classical in
/-- Claim C4 as amended: within a tick the death check runs before the
action pass, not after it.  The creatures a tick keeps are exactly those
whose pre-move positions (the positions in the post-spawn, post-shuffle
state) pass the death check against the surface built from this tick's
already-advanced obstacles, and the action pass then moves exactly those
survivors.  The obstacle advance, in contrast, does happen before the
check: the surface used is built from the obstacle list produced by this
tick's obstacle phase. -/
theorem deathCheck_preMove (sh : Obstacle → ℤ → ℤ → Bool) (f : Rng) (st : SimState) :
    (doTick sh f st).creatures =
      ((preDeath f st).creatures.filter fun c =>
          decide (¬ Dead (frameOf sh (preDeath f st)) (preDeath f st).border c)).map
        (act (frameOf sh (preDeath f st)) (preDeath f st).width (preDeath f st).height
          (preDeath f st).border) ∧
      (preDeath f st).obstacles = (obstaclesPhase f st).obstacles := by
  constructor
  · rw [doTick_creatures, deathPass_fst]
  · show (shufflePhase f (floorPhase f (evolutionPhase f (obstaclesPhase f st)))).obstacles = _
    have h1 : ∀ s : SimState, (shufflePhase f s).obstacles = s.obstacles := fun s => rfl
    rw [h1, floorPhase_obstacles, evolutionPhase_obstacles]

lemma dead_of_pixel (frame : ℤ → ℤ → Bool) (border : ℕ) (c : Creature) (X Y cx cy : ℤ)
    (hx : c.x = (X : ℝ)) (hy : c.y = (Y : ℝ))
    (hcx1 : (border : ℤ) + X - 6 ≤ cx) (hcx2 : cx ≤ (border : ℤ) + X + 6)
    (hcy1 : (border : ℤ) + Y - 6 ≤ cy) (hcy2 : cy ≤ (border : ℤ) + Y + 6)
    (hsq : ((border : ℤ) + X - cx) ^ 2 + ((border : ℤ) + Y - cy) ^ 2 ≤ 36)
    (hframe : frame cx cy = true) : Dead frame border c := by
  have hgx : goInt ((border : ℝ) + c.x) = (border : ℤ) + X := by
    rw [hx, show ((border : ℝ) + (X : ℝ)) = (((border : ℤ) + X : ℤ) : ℝ) by push_cast; ring,
      goInt_intCast]
  have hgy : goInt ((border : ℝ) + c.y) = (border : ℤ) + Y := by
    rw [hy, show ((border : ℝ) + (Y : ℝ)) = (((border : ℤ) + Y : ℤ) : ℝ) by push_cast; ring,
      goInt_intCast]
  have hdist : ∀ px py : ℤ,
      (xyDist ((border : ℝ) + c.x) ((border : ℝ) + c.y) px py ≤ (creatureRadius : ℝ) ↔
        ((border : ℤ) + X - px) ^ 2 + ((border : ℤ) + Y - py) ^ 2 ≤ (creatureRadius : ℤ) ^ 2) := by
    intro px py
    rw [hx, hy,
      show ((border : ℝ) + (X : ℝ)) = (((border : ℤ) + X : ℤ) : ℝ) by push_cast; ring,
      show ((border : ℝ) + (Y : ℝ)) = (((border : ℤ) + Y : ℤ) : ℝ) by push_cast; ring,
      show ((creatureRadius : ℕ) : ℝ) = (((creatureRadius : ℤ)) : ℝ) by push_cast; rfl]
    exact xyDist_cast_le _ _ _ _ _
  refine ⟨cy, ?_, ?_, cx, ?_, ?_, ?_, hframe⟩
  · rw [hgy, radius_cast]
    omega
  · rw [hgy, radius_cast]
    omega
  · rw [hgx, radius_cast]
    omega
  · rw [hgx, radius_cast]
    omega
  · exact (hdist cx cy).2 (by rw [radius_cast]; exact le_trans hsq (by norm_num))

lemma filter_replicate_bool {α : Type} (n : ℕ) (a : α) (p : α → Bool) :
    (List.replicate n a).filter p = if p a then List.replicate n a else [] := by
  induction n with
  | zero => simp
  | succ n ih =>
    cases h : p a with
    | true => simp [List.replicate_succ, List.filter_cons, h, ih]
    | false => simp [List.replicate_succ, List.filter_cons, h, ih]

lemma set_replicate_self {α : Type} :
    ∀ (n i : ℕ) (a : α), (List.replicate n a).set i a = List.replicate n a := by
  intro n
  induction n with
  | zero => intro i a; rfl
  | succ n ih =>
    intro i a
    cases i with
    | zero => rfl
    | succ i =>
      show (List.replicate (n + 1) a).set (i + 1) a = _
      rw [List.replicate_succ, List.set_cons_succ, ih]

lemma listSwap_replicate {α : Type} (n i j : ℕ) (a : α) :
    listSwap (List.replicate n a) i j = List.replicate n a := by
  unfold listSwap
  cases h1 : (List.replicate n a).get? i with
  | none => rfl
  | some x =>
    cases h2 : (List.replicate n a).get? j with
    | none => rfl
    | some y =>
      have hx : x = a := List.eq_of_mem_replicate (List.get?_mem h1)
      have hy : y = a := List.eq_of_mem_replicate (List.get?_mem h2)
      show ((List.replicate n a).set i y).set j x = List.replicate n a
      rw [hx, hy, set_replicate_self, set_replicate_self]

lemma shuffleAux_replicate {α : Type} (ints : ℕ → ℕ) :
    ∀ (i n k : ℕ) (a : α), (shuffleAux ints i (List.replicate n a) k).1 = List.replicate n a := by
  intro i
  induction i with
  | zero => intro n k a; rfl
  | succ i ih =>
    intro n k a
    show (shuffleAux ints i (listSwap (List.replicate n a) (i + 1) (ints k % (i + 2))) (k + 1)).1 = _
    rw [listSwap_replicate]
    exact ih n (k + 1) a

lemma obstaclesPhase_creatures (f : Rng) (st : SimState) :
    (obstaclesPhase f st).creatures = st.creatures := by
  unfold obstaclesPhase
  dsimp only
  split <;> rfl

lemma obstaclesPhase_tick (f : Rng) (st : SimState) :
    (obstaclesPhase f st).tick = st.tick := by
  unfold obstaclesPhase
  dsimp only
  split <;> rfl

lemma obstaclesPhase_border (f : Rng) (st : SimState) :
    (obstaclesPhase f st).border = st.border := by
  unfold obstaclesPhase
  dsimp only
  split <;> rfl

lemma obstaclesPhase_width (f : Rng) (st : SimState) :
    (obstaclesPhase f st).width = st.width := by
  unfold obstaclesPhase
  dsimp only
  split <;> rfl

lemma obstaclesPhase_height (f : Rng) (st : SimState) :
    (obstaclesPhase f st).height = st.height := by
  unfold obstaclesPhase
  dsimp only
  split <;> rfl

/-- Evaluation of the pre-death phases for a state that needs no creature
spawning: at least minCreatures identical creatures and a tick counter off
the evolution cycle.  The creature list survives the phases unchanged
(the shuffle permutes identical elements). -/
lemma preDeath_eval (f : Rng) (st : SimState) (c : Creature) (n : ℕ)
    (hc : st.creatures = List.replicate n c) (ht : ¬ st.tick % evolutionCycleTicks = 0)
    (hn : minCreatures ≤ n) :
    (preDeath f st).creatures = List.replicate n c ∧
      (preDeath f st).border = st.border ∧
      (preDeath f st).width = st.width ∧
      (preDeath f st).height = st.height ∧
      (preDeath f st).obstacles = (obstaclesPhase f st).obstacles := by
  have h1c := obstaclesPhase_creatures f st
  have h1t := obstaclesPhase_tick f st
  have hevo : evolutionPhase f (obstaclesPhase f st) = obstaclesPhase f st := by
    unfold evolutionPhase
    rw [if_neg]
    rintro ⟨hco, _⟩
    rw [h1t] at hco
    exact ht hco
  have hflr : floorPhase f (obstaclesPhase f st) = obstaclesPhase f st := by
    unfold floorPhase
    rw [if_neg]
    rw [h1c, hc, List.length_replicate]
    omega
  have hpre : preDeath f st = shufflePhase f (obstaclesPhase f st) := by
    unfold preDeath
    rw [hevo, hflr]
  refine ⟨?_, ?_, ?_, ?_, ?_⟩
  · rw [hpre]
    unfold shufflePhase
    dsimp only
    rw [h1c, hc]
    exact shuffleAux_replicate f.ints _ n _ c
  · rw [hpre]
    exact obstaclesPhase_border f st
  · rw [hpre]
    exact obstaclesPhase_width f st
  · rw [hpre]
    exact obstaclesPhase_height f st
  · rw [hpre]
    rfl

lemma advanceObstacles_replicate (Wf Hf : ℚ) (o : Obstacle) (n : ℕ)
    (h : ¬ (o.x + o.dx - Wf ≥ o.length ∨ -(o.x + o.dx) ≥ o.length ∨
      o.y + o.dy - Hf ≥ o.length ∨ -(o.y + o.dy) ≥ o.length)) :
    advanceObstacles Wf Hf (List.replicate n o) =
      List.replicate n { o with x := o.x + o.dx, y := o.y + o.dy } := by
  induction n with
  | zero => rfl
  | succ n ih =>
    rw [List.replicate_succ]
    show (if _ then _ else _) = _
    rw [if_neg h, ih, List.replicate_succ]

lemma obstaclesPhase_obstacles_eval (f : Rng) (st : SimState)
    (hw : st.width = 100) (hh : st.height = 100) (hb : st.border = 16)
    (ho : st.obstacles = List.replicate 6 o2) :
    (obstaclesPhase f st).obstacles = List.replicate 6 o2a := by
  have hadv : advanceObstacles ((frameW st.width st.border : ℕ) : ℚ)
      ((frameW st.height st.border : ℕ) : ℚ) st.obstacles = List.replicate 6 o2a := by
    rw [ho, hw, hh, hb]
    rw [advanceObstacles_replicate _ _ o2 6 (by norm_num [o2, frameW])]
    congr 1
    show Obstacle.mk _ _ _ _ _ _ = o2a
    rw [o2a]
    simp only [o2, Obstacle.mk.injEq]
    norm_num
  unfold obstaclesPhase
  dsimp only
  rw [hadv]
  rw [if_neg (by simp [numObstacles])]

lemma occupied_border_pixel_12 (obs : List Obstacle) :
    occupied strokeH 100 100 16 obs 12 12 = true := by
  unfold occupied
  have hfw : ((frameW 100 16 : ℕ) : ℤ) = 132 := by norm_num [frameW]
  rw [if_pos ⟨by omega, by rw [hfw]; omega, by omega, by rw [hfw]; omega⟩]
  have hb1 : decide ((12 : ℤ) < ((16 : ℕ) : ℤ)) = true := by
    rw [decide_eq_true_eq]
    norm_num
  rw [hb1]
  rfl

/-- Claim C2 counterexample: a state with exactly minCreatures creatures,
all of which fail the death check in the tick (their sampling squares meet
the border band).  The in-tick floor top-up happens before the death pass,
so the tick ends with zero active creatures, below the floor. -/
theorem doTick_below_floor_cex :
    (doTick strokeH constRng st2).creatures.length = 0 ∧ 0 < minCreatures := by
  refine ⟨?_, by decide⟩
  rcases preDeath_eval constRng st2 c2Creature 10 rfl (by norm_num [st2, evolutionCycleTicks])
    (by norm_num [minCreatures]) with ⟨hcre, hbor, hw, hh, _⟩
  have hb16 : (preDeath constRng st2).border = 16 := by rw [hbor]; rfl
  have hw100 : (preDeath constRng st2).width = 100 := by rw [hw]; rfl
  have hh100 : (preDeath constRng st2).height = 100 := by rw [hh]; rfl
  rw [doTick_creatures, List.length_map, deathPass_fst, hcre, hb16]
  have hfr : frameOf strokeH (preDeath constRng st2) =
      occupied strokeH 100 100 16 ((preDeath constRng st2).obstacles) := by
    unfold frameOf
    rw [hb16, hw100, hh100]
  have hdead : Dead (frameOf strokeH (preDeath constRng st2)) 16 c2Creature := by
    refine dead_of_pixel _ 16 c2Creature 0 0 12 12 (by norm_num [c2Creature])
      (by norm_num [c2Creature]) (by omega) (by omega) (by omega) (by omega) (by norm_num) ?_
    rw [hfr]
    exact occupied_border_pixel_12 _
  rw [filter_replicate_bool, if_neg (by simp [hdead])]
  rfl

set_option maxRecDepth 8000 in
lemma getAction_c4 (frame : ℤ → ℤ → Bool) (w h b : ℕ) :
    (getAction frame w h b c4Creature).1.1 = 0 ∧
      (getAction frame w h b c4Creature).1.2 = Real.tanh 1 := by
  unfold getAction
  set inputs := (List.range numBrainInputs).map fun i : ℕ =>
    distanceToNearest frame w h b c4Creature (Real.pi * 2 * (i : ℝ) / (numBrainInputs : ℝ))
    with hin
  have hlen : inputs.length = numBrainInputs := by
    rw [hin, List.length_map, List.length_range]
  have hstep : step c4Creature.brain inputs = some (stepCore c4Creature.brain inputs) := by
    unfold step
    rw [if_pos hlen]
  rw [hstep]
  have hio0 : ∀ xv : ℕ → ℝ,
      writeInOut c4Creature.brain.inOutput c4Creature.brain.allWeights xv inLayerLen 0 = 1 := by
    intro xv
    rw [writeInOut_apply, if_neg (by omega)]
    rfl
  have hturn : (stepCore c4Creature.brain inputs).1.1 = 0 := by
    have hproj : (stepCore c4Creature.brain inputs).1.1 =
        writeOutput c4Creature.brain.output c4Creature.brain.allWeights
          (writeInOut c4Creature.brain.inOutput c4Creature.brain.allWeights
            (effectiveX c4Creature.brain inputs) inLayerLen) outLayerLen 0 := rfl
    rw [hproj, writeOutput_apply, if_pos (by decide)]
    unfold tanhActivation
    rw [Finset.sum_eq_zero, Real.tanh_zero]
    intro k hk
    have hk25 : k < 25 := by
      have h1 := Finset.mem_range.1 hk
      have ho25 : outWeightLen = 25 := rfl
      omega
    have hz : ∀ j, j < 25 →
        moveWeights.getD (inLayerLen * inWeightLen + 0 * outWeightLen + j) 0 = 0 := by decide
    have hcw : c4Creature.brain.allWeights = moveWeights := rfl
    rw [hcw, hz k hk25]
    simp
  have hmove : (stepCore c4Creature.brain inputs).1.2 = Real.tanh 1 := by
    have hproj : (stepCore c4Creature.brain inputs).1.2 =
        writeOutput c4Creature.brain.output c4Creature.brain.allWeights
          (writeInOut c4Creature.brain.inOutput c4Creature.brain.allWeights
            (effectiveX c4Creature.brain inputs) inLayerLen) outLayerLen 1 := rfl
    rw [hproj, writeOutput_apply, if_pos (by decide)]
    set io := writeInOut c4Creature.brain.inOutput c4Creature.brain.allWeights
      (effectiveX c4Creature.brain inputs) inLayerLen with hio
    unfold tanhActivation
    have hterm : ∀ k ∈ Finset.range outWeightLen,
        ((c4Creature.brain.allWeights.getD (inLayerLen * inWeightLen + 1 * outWeightLen + k) 0 : ℚ) : ℝ) *
            io k = (if k = 0 then io k else 0) := by
      intro k hk
      have hk25 : k < 25 := by
        have h1 := Finset.mem_range.1 hk
        have ho25 : outWeightLen = 25 := rfl
        omega
      have hcw : c4Creature.brain.allWeights = moveWeights := rfl
      have hone : ∀ j, j < 25 →
          moveWeights.getD (inLayerLen * inWeightLen + 1 * outWeightLen + j) 0 =
            (if j = 0 then 1 else 0) := by decide
      rw [hcw, hone k hk25]
      by_cases hk0 : k = 0
      · rw [if_pos hk0, if_pos hk0]
        norm_num
      · rw [if_neg hk0, if_neg hk0]
        norm_num
    rw [Finset.sum_congr rfl hterm]
    rw [show outWeightLen = 25 from rfl]
    rw [Finset.sum_ite_eq' (Finset.range 25) 0 io]
    rw [if_pos (by simp)]
    rw [hio, hio0]
  exact ⟨by rw [Option.getD_some, hturn], by rw [Option.getD_some, hmove]⟩

lemma act_pos_c4 (frame : ℤ → ℤ → Bool) (w h b : ℕ) :
    (act frame w h b c4Creature).x = 50 + Real.tanh 1 * 4 ∧
      (act frame w h b c4Creature).y = 50 := by
  rcases getAction_c4 frame w h b with ⟨ht, hm⟩
  constructor
  · show c4Creature.x + Real.cos (c4Creature.angle + (getAction frame w h b c4Creature).1.1 / 8) *
      (getAction frame w h b c4Creature).1.2 * 4 = 50 + Real.tanh 1 * 4
    rw [ht, hm]
    have hx50 : c4Creature.x = 50 := rfl
    have ha0 : c4Creature.angle = 0 := rfl
    rw [hx50, ha0]
    norm_num
  · show c4Creature.y + Real.sin (c4Creature.angle + (getAction frame w h b c4Creature).1.1 / 8) *
      (getAction frame w h b c4Creature).1.2 * 4 = 50
    rw [ht, hm]
    have hy50 : c4Creature.y = 50 := rfl
    have ha0 : c4Creature.angle = 0 := rfl
    rw [hy50, ha0]
    norm_num

lemma tanh_one_pos : 0 < Real.tanh 1 := by
  rw [Real.tanh_eq_sinh_div_cosh]
  exact div_pos (Real.sinh_pos_iff.2 one_pos) (Real.cosh_pos 1)

lemma strokeH_o2a_false (p q : ℤ) (hq : 60 ≤ q) : strokeH o2a p q = false := by
  unfold strokeH
  rw [decide_eq_false_iff_not]
  rintro ⟨_, _, _, hd⟩
  have hda : (q : ℚ) ≤ 16 + 23 / 2 + 2 := by
    have ho : o2a.y = 23 / 2 := rfl
    have hol : o2a.length = 5 := rfl
    rw [ho] at hd
    exact hd
  have h60 : (60 : ℚ) ≤ (q : ℚ) := by exact_mod_cast hq
  norm_num at hda
  linarith

lemma occupied_c4_false (obs : List Obstacle) (hobs : obs = List.replicate 6 o2a)
    (p q : ℤ) (hp1 : 40 ≤ p) (hp2 : p ≤ 72) (hq1 : 60 ≤ q) (hq2 : q ≤ 72) :
    occupied strokeH 100 100 16 obs p q = false := by
  subst hobs
  unfold occupied
  have hfw : ((frameW 100 16 : ℕ) : ℤ) = 132 := by norm_num [frameW]
  rw [if_pos ⟨by omega, by rw [hfw]; omega, by omega, by rw [hfw]; omega⟩]
  have hb1 : decide (p < ((16 : ℕ) : ℤ)) = false := by
    simp only [decide_eq_false_iff_not]
    push_cast
    omega
  have hb2 : decide (((100 + 16 : ℕ) : ℤ) ≤ p) = false := by
    simp only [decide_eq_false_iff_not]
    push_cast
    omega
  have hb3 : decide (q < ((16 : ℕ) : ℤ)) = false := by
    simp only [decide_eq_false_iff_not]
    push_cast
    omega
  have hb4 : decide (((100 + 16 : ℕ) : ℤ) ≤ q) = false := by
    simp only [decide_eq_false_iff_not]
    push_cast
    omega
  have hany : (List.replicate 6 o2a).any (fun o => strokeH o p q) = false := by
    rw [Bool.eq_false_iff]
    intro hc
    rw [List.any_eq_true] at hc
    rcases hc with ⟨o, ho, hpred⟩
    rw [List.eq_of_mem_replicate ho, strokeH_o2a_false p q hq1] at hpred
    cases hpred
  rw [hb1, hb2, hb3, hb4, hany]
  rfl

lemma c4_not_dead (obs : List Obstacle) (hobs : obs = List.replicate 6 o2a) :
    ¬ Dead (occupied strokeH 100 100 16 obs) 16 c4Creature := by
  rintro ⟨cy, h1, h2, cx, h3, h4, _, hframe⟩
  have hgx : goInt (((16 : ℕ) : ℝ) + c4Creature.x) = 66 := by
    rw [show c4Creature.x = ((50 : ℤ) : ℝ) from by norm_num [c4Creature],
      show (((16 : ℕ) : ℝ) + ((50 : ℤ) : ℝ)) = ((66 : ℤ) : ℝ) by push_cast; ring,
      goInt_intCast]
  have hgy : goInt (((16 : ℕ) : ℝ) + c4Creature.y) = 66 := by
    rw [show c4Creature.y = ((50 : ℤ) : ℝ) from by norm_num [c4Creature],
      show (((16 : ℕ) : ℝ) + ((50 : ℤ) : ℝ)) = ((66 : ℤ) : ℝ) by push_cast; ring,
      goInt_intCast]
  rw [hgy, radius_cast] at h1 h2
  rw [hgx, radius_cast] at h3 h4
  have hfalse := occupied_c4_false obs hobs cx cy (by omega) (by omega) (by omega) (by omega)
  rw [hfalse] at hframe
  cases hframe

/-- Claim C4 counterexample: a concrete tick in which every creature
survives and then moves.  The positions the death pass tested are the
pre-move positions (50, 50) of the post-shuffle state, while the positions
produced by the same tick's action pass are (50 + 4·tanh 1, 50) ≠ (50, 50):
the death check did not evaluate the positions produced by this tick's
action pass. -/
theorem deathCheck_preMove_cex :
    ((preDeath constRng st4).creatures.map fun c => (c.x, c.y)) =
        List.replicate 10 ((50 : ℝ), (50 : ℝ)) ∧
      ((doTick strokeH constRng st4).creatures.map fun c => (c.x, c.y)) =
        List.replicate 10 ((50 + Real.tanh 1 * 4 : ℝ), (50 : ℝ)) ∧
      (50 + Real.tanh 1 * 4 : ℝ) ≠ 50 := by
  rcases preDeath_eval constRng st4 c4Creature 10 rfl (by norm_num [st4, evolutionCycleTicks])
    (by norm_num [minCreatures]) with ⟨hcre, hbor, hw, hh, hobs⟩
  have hb16 : (preDeath constRng st4).border = 16 := by rw [hbor]; rfl
  have hw100 : (preDeath constRng st4).width = 100 := by rw [hw]; rfl
  have hh100 : (preDeath constRng st4).height = 100 := by rw [hh]; rfl
  have hobs6 : (preDeath constRng st4).obstacles = List.replicate 6 o2a := by
    rw [hobs]
    exact obstaclesPhase_obstacles_eval constRng st4 rfl rfl rfl rfl
  have hfr : frameOf strokeH (preDeath constRng st4) =
      occupied strokeH 100 100 16 ((preDeath constRng st4).obstacles) := by
    unfold frameOf
    rw [hb16, hw100, hh100]
  refine ⟨?_, ?_, ?_⟩
  · rw [hcre, List.map_replicate]
    rfl
  · rw [doTick_creatures, deathPass_fst, hcre, hb16]
    have halive : ¬ Dead (frameOf strokeH (preDeath constRng st4)) 16 c4Creature := by
      rw [hfr]
      exact c4_not_dead _ hobs6
    rw [filter_replicate_bool, if_pos (by simp [halive])]
    rw [List.map_replicate, List.map_replicate]
    rw [hw100, hh100]
    rcases act_pos_c4 (frameOf strokeH (preDeath constRng st4)) 100 100 16 with ⟨hax, hay⟩
    rw [hax, hay]
  · have hpos := tanh_one_pos
    intro hc
    nlinarith

lemma distanceToNearest_first_hit (frame : ℤ → ℤ → Bool) (width height border : ℕ)
    (c : Creature) (X Y : ℤ) (hx : c.x = (X : ℝ)) (hy : c.y = (Y : ℝ)) (ha : c.angle = 0)
    (hb1 : 0 ≤ X + 1) (hb2 : X + 1 < ((frameW width border : ℕ) : ℤ))
    (hb3 : 0 ≤ Y) (hb4 : Y < ((frameW height border : ℕ) : ℤ))
    (hframe : frame (X + 1) Y = true) :
    distanceToNearest frame width height border c 0 = 1 := by
  unfold distanceToNearest
  dsimp only
  have hcos : Real.cos (0 + c.angle) = 1 := by rw [ha, add_zero, Real.cos_zero]
  have hsin : Real.sin (0 + c.angle) = 0 := by rw [ha, add_zero, Real.sin_zero]
  rw [hcos, hsin, hx, hy]
  have hfu : senseFuel width height border = (2 * (width + height + 4 * border) + 7) + 1 := rfl
  rw [hfu]
  simp only [distAux, add_zero]
  rw [if_pos ⟨by exact_mod_cast hb2, by exact_mod_cast hb1, by exact_mod_cast hb4,
    by exact_mod_cast hb3⟩]
  have hg1 : goInt ((X : ℝ) + 1) = X + 1 := by
    rw [show ((X : ℝ) + 1) = ((X + 1 : ℤ) : ℝ) by push_cast; ring, goInt_intCast]
  have hg2 : goInt ((Y : ℝ)) = Y := goInt_intCast Y
  rw [hg1, hg2, if_pos hframe]
  unfold xyDist
  rw [show ((X : ℝ) - ((X : ℝ) + 1)) ^ 2 + ((Y : ℝ) - (Y : ℝ)) ^ 2 = 1 by ring]
  exact Real.sqrt_one

/-- Claim C5 as amended: the agreement between sensing and the death check
holds exactly when the two sample the same coordinates, i.e. when the
border is zero.  DistanceToNearest samples the frame at the creature's
unshifted coordinates while the death check samples at the border-shifted
coordinates, so with borderWidth = 0 a creature one unit away from an
occupied pixel and facing it gets ray distance exactly 1 and the death
check at that position fires. -/
theorem senseDeath_agree_zeroBorder (frame : ℤ → ℤ → Bool) (width height : ℕ)
    (c : Creature) (X Y : ℤ) (hx : c.x = (X : ℝ)) (hy : c.y = (Y : ℝ)) (ha : c.angle = 0)
    (hb1 : 0 ≤ X + 1) (hb2 : X + 1 < ((frameW width 0 : ℕ) : ℤ))
    (hb3 : 0 ≤ Y) (hb4 : Y < ((frameW height 0 : ℕ) : ℤ))
    (hframe : frame (X + 1) Y = true) :
    distanceToNearest frame width height 0 c 0 = 1 ∧ Dead frame 0 c := by
  refine ⟨distanceToNearest_first_hit frame width height 0 c X Y hx hy ha hb1 hb2 hb3 hb4
    hframe, ?_⟩
  refine dead_of_pixel frame 0 c X Y (X + 1) Y hx hy ?_ ?_ ?_ ?_ ?_ hframe
  · push_cast
    omega
  · push_cast
    omega
  · push_cast
    omega
  · push_cast
    omega
  · push_cast
    ring_nf
    norm_num

/-- Witness for senseDeath_agree_zeroBorder: concrete zero-border frame and
creature. -/
theorem senseDeath_agree_zeroBorder_witness :
    distanceToNearest senseFrame 100 100 0 c5w 0 = 1 ∧ Dead senseFrame 0 c5w :=
  senseDeath_agree_zeroBorder senseFrame 100 100 c5w 30 50 (by norm_num [c5w])
    (by norm_num [c5w]) rfl (by omega) (by norm_num [frameW]) (by omega)
    (by norm_num [frameW]) (by decide)

/-- Claim C5 counterexample: on the bordered surface actually used by the
program (borderWidth 16), a creature whose ray sample one unit ahead lands
on the rasterized o5 stroke gets DistanceToNearest = 1, yet the death
check at that position samples the frame 16 pixels away in each axis and
returns false: sensing and the death check do not agree on the creature's
location. -/
theorem senseDeathDisagree_cex :
    distanceToNearest frame5 100 100 16 c5Creature 0 = 1 ∧ ¬ Dead frame5 16 c5Creature := by
  constructor
  · refine distanceToNearest_first_hit frame5 100 100 16 c5Creature 29 50
      (by norm_num [c5Creature]) (by norm_num [c5Creature]) rfl (by omega)
      (by norm_num [frameW]) (by omega) (by norm_num [frameW]) ?_
    show frame5 30 50 = true
    unfold frame5 occupied
    have hfw : ((frameW 100 16 : ℕ) : ℤ) = 132 := by norm_num [frameW]
    rw [if_pos ⟨by omega, by rw [hfw]; omega, by omega, by rw [hfw]; omega⟩]
    have hstroke : strokeV o5 30 50 = true := by
      unfold strokeV
      rw [decide_eq_true_eq]
      norm_num [o5, obstacleWidth]
    simp [hstroke]
  · rintro ⟨cy, h1, h2, cx, h3, h4, _, hframe⟩
    have hgx : goInt (((16 : ℕ) : ℝ) + c5Creature.x) = 45 := by
      rw [show c5Creature.x = ((29 : ℤ) : ℝ) from by norm_num [c5Creature],
        show (((16 : ℕ) : ℝ) + ((29 : ℤ) : ℝ)) = ((45 : ℤ) : ℝ) by push_cast; ring,
        goInt_intCast]
    have hgy : goInt (((16 : ℕ) : ℝ) + c5Creature.y) = 66 := by
      rw [show c5Creature.y = ((50 : ℤ) : ℝ) from by norm_num [c5Creature],
        show (((16 : ℕ) : ℝ) + ((50 : ℤ) : ℝ)) = ((66 : ℤ) : ℝ) by push_cast; ring,
        goInt_intCast]
    rw [hgy, radius_cast] at h1 h2
    rw [hgx, radius_cast] at h3 h4
    have hfalse : frame5 cx cy = false := by
      unfold frame5 occupied
      have hfw : ((frameW 100 16 : ℕ) : ℤ) = 132 := by norm_num [frameW]
      rw [if_pos ⟨by omega, by rw [hfw]; omega, by omega, by rw [hfw]; omega⟩]
      have hc1 : decide (cx < ((16 : ℕ) : ℤ)) = false := by
        simp only [decide_eq_false_iff_not]
        push_cast
        omega
      have hc2 : decide (((100 + 16 : ℕ) : ℤ) ≤ cx) = false := by
        simp only [decide_eq_false_iff_not]
        push_cast
        omega
      have hc3 : decide (cy < ((16 : ℕ) : ℤ)) = false := by
        simp only [decide_eq_false_iff_not]
        push_cast
        omega
      have hc4 : decide (((100 + 16 : ℕ) : ℤ) ≤ cy) = false := by
        simp only [decide_eq_false_iff_not]
        push_cast
        omega
      have hsv : strokeV o5 cx cy = false := by
        unfold strokeV
        rw [decide_eq_false_iff_not]
        rintro ⟨_, hsc2, _, _⟩
        rw [show o5.x = (14 : ℚ) from rfl] at hsc2
        have h39 : (39 : ℚ) ≤ (cx : ℚ) := by exact_mod_cast (by omega : (39 : ℤ) ≤ cx)
        norm_num [obstacleWidth] at hsc2
        linarith
      have hany : ([o5] : List Obstacle).any (fun o => strokeV o cx cy) = false := by
        simp [hsv]
      rw [hc1, hc2, hc3, hc4, hany]
      rfl
    rw [hfalse] at hframe
    cases hframe

set_option maxRecDepth 8000 in
/-- Claim C1 (code evaluation): recycling is observably different from
fresh allocation.  A creature that died with score 100 is folded into the
hall of fame as an entry sharing its brain's backing weight slice
(GetWeights returns the slice itself).  SpawnRandomCreature then recycles
it: the re-activated creature still carries score 100, where a freshly
allocated creature starts at score 0; and RandomizeWeights has overwritten
the shared slice in place, so the hall-of-fame entry recorded at death now
reads back different weights than the ones it was recorded with. -/
theorem recycle_not_fresh_cex :
    hFoldDead hStore0 [] hDead0 = [{ score := 100, ref := 0 }] ∧
      (hSpawnRandomRecycle constRng 0 hStore0 [hDead0] []).2.2 = [hDead0] ∧
      hDead0.score = 100 ∧ ((100 : ℤ) ≠ 0) ∧
      hLookup (hSpawnRandomRecycle constRng 0 hStore0 [hDead0] []).1
          ({ score := 100, ref := 0 } : HTopCreature).ref ≠ hLookup hStore0 0 := by
  refine ⟨rfl, rfl, rfl, by decide, ?_⟩
  intro heq
  have h1 : (hLookup (hSpawnRandomRecycle constRng 0 hStore0 [hDead0] []).1
      ({ score := 100, ref := 0 } : HTopCreature).ref).getD 0 0 = (3 / 4 : ℚ) * 2 - 1 := rfl
  have h2 : (hLookup hStore0 0).getD 0 0 = 0 := rfl
  rw [heq, h2] at h1
  norm_num at h1

end CreatureBox
